import Mathlib

/-!
Shallow embedding of the budget-notion core subsystems:
the Transaction domain entity (src/domain/entities/transaction.py),
the sync engine (src/application/services/sync_service.py), and the
batch LLM categorization pipeline
(src/application/services/categorization_service.py together with
src/infrastructure/ai/response_parser.py).

Python datetimes are modelled as naturals, Decimal as exact rationals,
UUIDs as naturals.  Repository state is the stored list of transactions;
writes go through per-backend functions: the SQLite INSERT appends a row
verbatim, the SQLite UPDATE rewrites the matching row but stamps
`updated_at = datetime.now()` and leaves the stored `created_at` alone
(src/infrastructure/repositories/sqlite_repository.py), while Notion's
`created_at`/`updated_at` read back as the server-assigned
`created_time`/`last_edited_time` of the page, so a Notion add re-stamps
both and a Notion update re-stamps `updated_at`
(src/infrastructure/repositories/notion_repository.py,
`_page_to_transaction`).  The wall-clock instants of the writes are an
oracle `Txn → Nat` threaded through the sync loop.  (The date-descending
ordering of list() is immaterial to every property proved here, so
list() is modelled as returning the stored order.)
-/

namespace Budget

/-- List prefix test by structural recursion (kernel-evaluable). -/
def listPrefixB : List Char → List Char → Bool
  | [], _ => true
  | _ :: _, [] => false
  | a :: as, b :: bs => a = b && listPrefixB as bs

/-- Sublist-of-consecutive-elements test by structural recursion. -/
def isSubList (needle hay : List Char) : Bool :=
  match hay with
  | [] => needle.isEmpty
  | _ :: t => listPrefixB needle hay || isSubList needle t

/-- Python substring test `sub in s`. -/
def pyIn (sub s : String) : Bool := isSubList sub.data s.data

/-- Python `str.lower()` (over the ASCII alphabet in play here). -/
def pyLower (s : String) : String := String.mk (s.data.map Char.toLower)

/-- Python `str.strip()`: drop leading and trailing whitespace. -/
def pyStrip (s : String) : String :=
  String.mk (((s.data.dropWhile Char.isWhitespace).reverse.dropWhile
    Char.isWhitespace).reverse)

/-- Python `min` over exact decimals (ties keep the first argument). -/
def pyMin (a b : Rat) : Rat := if a ≤ b then a else b

/-- Python `max` over exact decimals (ties keep the first argument). -/
def pyMax (a b : Rat) : Rat := if a ≥ b then a else b

/-- Python `abs` over exact decimals. -/
def pyAbs (q : Rat) : Rat := if q < 0 then -q else q

/-- ReimbursementStatus enum (none / pending / partial / complete). -/
inductive RStatus where
  | sNone
  | sPending
  | sPart
  | sComplete
deriving DecidableEq, Repr

/-- The Transaction dataclass fields. -/
structure Txn where
  id : Nat
  date : Int
  description : String
  amount : Rat
  category : String
  subcategory : Option String
  account : Option String
  notes : Option String
  reviewed : Bool
  ai_confidence : Option Rat
  tags : List String
  reimbursable : Bool
  expected_reimbursement : Rat
  actual_reimbursement : Rat
  reimbursement_status : RStatus
  created_at : Nat
  updated_at : Nat
deriving DecidableEq, Repr

/-- The status derivation at the end of `Transaction.__post_init__`: the
final (implicit) else keeps the status that was passed in. -/
def deriveStatus (reimbursable : Bool) (expected actual : Rat)
    (passed : RStatus) : RStatus :=
  if ¬reimbursable then RStatus.sNone
  else if actual = 0 then RStatus.sPending
  else if actual ≥ expected ∧ expected > 0 then RStatus.sComplete
  else if actual > 0 then RStatus.sPart
  else passed

/-- `Transaction.__post_init__`: validation, tag normalization and
reimbursement-status derivation.  Every construction of a Transaction
(including `_copy_with`) runs this. -/
def mkTransaction (t : Txn) : Except String Txn :=
  if pyStrip t.description = "" then
    Except.error "Transaction description cannot be empty"
  else if pyStrip t.category = "" then
    Except.error "Transaction category cannot be empty"
  else if t.ai_confidence.any (fun c => !(decide (0 ≤ c ∧ c ≤ 1))) then
    Except.error "AI confidence must be between 0.0 and 1.0"
  else if t.expected_reimbursement < 0 then
    Except.error "Expected reimbursement cannot be negative"
  else if t.actual_reimbursement < 0 then
    Except.error "Actual reimbursement cannot be negative"
  else if t.actual_reimbursement > pyAbs t.amount then
    Except.error "Actual reimbursement cannot exceed transaction amount"
  else
    Except.ok { t with
      tags := (t.tags.filter (fun s => pyStrip s ≠ "")).map
        (fun s => pyStrip (pyLower s))
      reimbursement_status := deriveStatus t.reimbursable
        t.expected_reimbursement t.actual_reimbursement
        t.reimbursement_status }

/-- `Transaction.mark_as_reviewed`; `now` is the wall-clock instant at
which `_copy_with` runs (it sets `updated_at` to `datetime.now()`). -/
def mark_as_reviewed (t : Txn) (now : Nat) : Except String Txn :=
  mkTransaction { t with reviewed := true, updated_at := now }

/-- `Transaction.update_category`. -/
def update_category (t : Txn) (newCategory newSubcategory : String)
    (confidence : Option Rat) (now : Nat) : Except String Txn :=
  if pyStrip newCategory = "" then Except.error "Category cannot be empty"
  else mkTransaction { t with
    category := newCategory
    subcategory := some newSubcategory
    ai_confidence := confidence
    updated_at := now }

/-- `Transaction.anonymize`; it passes `updated_at=self.updated_at` to
`_copy_with`, deliberately leaving the timestamp unchanged, so the
wall-clock instant `now` is evaluated and discarded. -/
def anonymize (t : Txn) (_now : Nat) : Except String Txn :=
  mkTransaction { t with
    description := "[REDACTED]"
    notes := none
    updated_at := t.updated_at }

/-- `Transaction.add_tag`: returns `self` unchanged when the normalized
tag is empty or already present. -/
def add_tag (t : Txn) (tag : String) (now : Nat) : Except String Txn :=
  if pyStrip (pyLower tag) = "" ∨ pyStrip (pyLower tag) ∈ t.tags then
    Except.ok t
  else mkTransaction { t with
    tags := t.tags ++ [pyStrip (pyLower tag)]
    updated_at := now }

/-- `Transaction.remove_tag`: returns `self` unchanged when the
normalized tag is absent. -/
def remove_tag (t : Txn) (tag : String) (now : Nat) : Except String Txn :=
  if pyStrip (pyLower tag) ∉ t.tags then Except.ok t
  else mkTransaction { t with
    tags := t.tags.filter (fun s => s ≠ pyStrip (pyLower tag))
    updated_at := now }

/-- `Transaction.update_reimbursement`. -/
def update_reimbursement (t : Txn) (actual : Rat) (status : Option RStatus)
    (now : Nat) : Except String Txn :=
  if actual < 0 then Except.error "Reimbursement amount cannot be negative"
  else if actual > pyAbs t.amount then
    Except.error "Reimbursement cannot exceed transaction amount"
  else
    mkTransaction { t with
      actual_reimbursement := actual
      reimbursement_status :=
        match status with
        | some s => s
        | none =>
          if actual = 0 then RStatus.sPending
          else if actual ≥ t.expected_reimbursement ∧
                  t.expected_reimbursement > 0 then RStatus.sComplete
          else if actual > 0 then RStatus.sPart
          else RStatus.sNone
      updated_at := now }

/-! Sync DTOs (src/application/dtos/sync_dto.py) and the sync engine
(src/application/services/sync_service.py).  The wall-clock fields
`started_at`/`completed_at`/`duration_seconds` of SyncResult are not
modelled; the logic never reads them. -/

/-- SyncDirection enum. -/
inductive SyncDirection where
  | notion_to_sqlite
  | sqlite_to_notion
  | bidirectional
deriving DecidableEq, Repr

/-- ConflictResolution enum. -/
inductive ConflictResolution where
  | source_wins
  | target_wins
  | newest_wins
  | skip
deriving DecidableEq, Repr

/-- SyncMode enum. -/
inductive SyncMode where
  | full
  | incremental
deriving DecidableEq, Repr

/-- SyncOptions dataclass. -/
structure SyncOptions where
  direction : SyncDirection
  conflict_resolution : ConflictResolution
  mode : SyncMode
  last_sync_time : Option Nat
  dry_run : Bool
deriving DecidableEq, Repr

/-- The counter fields of the SyncResult dataclass. -/
structure SyncResult where
  created_in_target : Nat := 0
  updated_in_target : Nat := 0
  skipped : Nat := 0
  conflicts_resolved : Nat := 0
  errors : Nat := 0
  total_processed : Nat := 0
deriving DecidableEq, Repr

/-- A repository's stored transactions; `list()` returns them. -/
abbrev Repo := List Txn

/-- The row SQLite's `add` stores: the INSERT lists every field of the
transaction, `created_at`/`updated_at` included, verbatim
(sqlite_repository.py, `add`).  The write instant is unused. -/
def sqliteAddW (t : Txn) (_now : Nat) : Txn := t

/-- The row SQLite's `update` leaves: every core field comes from the
incoming transaction, but the SET list stamps
`updated_at = datetime.now().isoformat()` and omits `created_at`, so the
stored row keeps the old row's creation time (sqlite_repository.py,
`update`). -/
def sqliteUpdW (t : Txn) (now : Nat) (old : Txn) : Txn :=
  { t with created_at := old.created_at, updated_at := now }

/-- The transaction a Notion `add` effectively stores: the page keeps
every property of the transaction (its UUID under "Transaction ID"), but
`_page_to_transaction` reads `created_at`/`updated_at` back from the
server-assigned `created_time`/`last_edited_time` of the fresh page
(notion_repository.py). -/
def notionAddW (t : Txn) (now : Nat) : Txn :=
  { t with created_at := now, updated_at := now }

/-- The transaction a Notion `update` effectively stores: properties from
the incoming transaction, `created_time` of the page untouched, and
`last_edited_time` bumped by the server (notion_repository.py). -/
def notionUpdW (t : Txn) (now : Nat) (old : Txn) : Txn :=
  { t with created_at := old.created_at, updated_at := now }

/-- A repository backend: what `add` and `update` store, given the
incoming transaction, the wall-clock write instant, and (for update) the
old stored row. -/
structure Backend where
  addW : Txn → Nat → Txn
  updW : Txn → Nat → Txn → Txn

/-- The SQLite backend's write behaviour. -/
def sqliteBackend : Backend :=
  { addW := sqliteAddW, updW := sqliteUpdW }

/-- The Notion backend's write behaviour. -/
def notionBackend : Backend :=
  { addW := notionAddW, updW := notionUpdW }

/-- `add`: INSERT appends the stored form of the row. -/
def repoAddW (bk : Backend) (t : Txn) (now : Nat) (r : Repo) : Repo :=
  r ++ [bk.addW t now]

/-- `update`: replaces the row(s) with the matching id by the stored
form. -/
def repoUpdateW (bk : Backend) (t : Txn) (now : Nat) (r : Repo) : Repo :=
  r.map (fun u => if u.id = t.id then bk.updW t now u else u)

/-- Lookup in the dict `{t.id: t for t in target_transactions}`: a later
duplicate id overrides an earlier one in a Python dict build, so the
value is the last stored transaction with that id. -/
def lookupById (r : Repo) (i : Nat) : Option Txn :=
  r.reverse.find? (fun t => t.id = i)

/-- `SyncService._needs_update`. -/
def needs_update (source target : Txn) : Bool :=
  if source.updated_at ≠ target.updated_at then true
  else if source.date ≠ target.date ∨
          source.description ≠ target.description ∨
          source.amount ≠ target.amount ∨
          source.category ≠ target.category ∨
          source.subcategory ≠ target.subcategory ∨
          source.account ≠ target.account ∨
          source.notes ≠ target.notes ∨
          source.reviewed ≠ target.reviewed ∨
          source.ai_confidence ≠ target.ai_confidence ∨
          source.tags ≠ target.tags ∨
          source.reimbursable ≠ target.reimbursable ∨
          source.expected_reimbursement ≠ target.expected_reimbursement ∨
          source.actual_reimbursement ≠ target.actual_reimbursement ∨
          source.reimbursement_status ≠ target.reimbursement_status then true
  else false

/-- `SyncService._resolve_conflict`. -/
def resolve_conflict (source_txn target_txn : Txn)
    (strategy : ConflictResolution) : Bool :=
  match strategy with
  | ConflictResolution.source_wins => true
  | ConflictResolution.target_wins => false
  | ConflictResolution.skip => false
  | ConflictResolution.newest_wins =>
      decide (source_txn.updated_at > target_txn.updated_at)

/-- Evolving state of one unidirectional pass: the target repository plus
the SyncResult counters being accumulated. -/
structure SyncState where
  target : Repo
  res : SyncResult

/-- One iteration of the per-transaction loop of
`SyncService._sync_unidirectional`.  `targetMap` is the id-lookup dict
built once before the loop (it is never refreshed).  `addFails`/`updFails`
model an exception raised by the corresponding repository write; the
loop's `except` then increments `errors` and moves on.  `bk` is the
target repository's backend and `wst` the wall-clock oracle giving the
instant at which each transaction's write lands. -/
def processOne (opts : SyncOptions) (targetMap : Repo) (bk : Backend)
    (wst : Txn → Nat) (addFails updFails : Txn → Bool) (st : SyncState)
    (source_txn : Txn) : SyncState :=
  let res := { st.res with total_processed := st.res.total_processed + 1 }
  match lookupById targetMap source_txn.id with
  | none =>
      if opts.dry_run then
        { st with res := { res with
            created_in_target := res.created_in_target + 1 } }
      else if addFails source_txn then
        { st with res := { res with errors := res.errors + 1 } }
      else
        { target := repoAddW bk source_txn (wst source_txn) st.target
          res := { res with
            created_in_target := res.created_in_target + 1 } }
  | some target_txn =>
      if needs_update source_txn target_txn then
        if resolve_conflict source_txn target_txn opts.conflict_resolution
        then
          if opts.dry_run then
            { st with res := { res with
                updated_in_target := res.updated_in_target + 1
                conflicts_resolved := res.conflicts_resolved + 1 } }
          else if updFails source_txn then
            { st with res := { res with errors := res.errors + 1 } }
          else
            { target := repoUpdateW bk source_txn (wst source_txn) st.target
              res := { res with
                updated_in_target := res.updated_in_target + 1
                conflicts_resolved := res.conflicts_resolved + 1 } }
        else
          { st with res := { res with skipped := res.skipped + 1 } }
      else
        { st with res := res }

/-- The incremental-mode in-memory filter at the top of
`_sync_unidirectional`. -/
def sourceSelection (opts : SyncOptions) (source : Repo) : List Txn :=
  match opts.mode, opts.last_sync_time with
  | SyncMode.incremental, some t0 =>
      source.filter (fun t => t.updated_at ≥ t0)
  | _, _ => source

/-- `SyncService._sync_unidirectional`: reads the source (with the
incremental filter), builds the target id-map, then folds the
per-transaction loop.  Returns the final target state and counters. -/
def sync_unidirectional (opts : SyncOptions) (bk : Backend)
    (wst : Txn → Nat) (addFails updFails : Txn → Bool)
    (source target : Repo) (res : SyncResult) : SyncState :=
  (sourceSelection opts source).foldl
    (processOne opts target bk wst addFails updFails)
    { target := target, res := res }

/-- The no-exception write oracle (every repository write succeeds). -/
def noFail : Txn → Bool := fun _ => false

/-- Counter merge done by `sync()` for the bidirectional branch. -/
def mergeResults (a b : SyncResult) : SyncResult :=
  { created_in_target := a.created_in_target + b.created_in_target
    updated_in_target := a.updated_in_target + b.updated_in_target
    skipped := a.skipped + b.skipped
    conflicts_resolved := a.conflicts_resolved + b.conflicts_resolved
    errors := a.errors + b.errors
    total_processed := a.total_processed + b.total_processed }

/-- `SyncService.sync` under fault-free repository reads: dispatch on the
direction, running one or two unidirectional passes; the pass whose
target is SQLite writes through the SQLite backend, the pass whose
target is Notion through the Notion backend.  Returns the counters and
the final (notion, sqlite) states. -/
def syncPure (wst : Txn → Nat) (addFails updFails : Txn → Bool)
    (notion sqlite : Repo) (opts : SyncOptions) :
    SyncResult × Repo × Repo :=
  match opts.direction with
  | SyncDirection.notion_to_sqlite =>
      let st := sync_unidirectional opts sqliteBackend wst addFails
        updFails notion sqlite {}
      (st.res, notion, st.target)
  | SyncDirection.sqlite_to_notion =>
      let st := sync_unidirectional opts notionBackend wst addFails
        updFails sqlite notion {}
      (st.res, st.target, sqlite)
  | SyncDirection.bidirectional =>
      let st1 := sync_unidirectional opts sqliteBackend wst addFails
        updFails notion sqlite {}
      let st2 := sync_unidirectional opts notionBackend wst addFails
        updFails st1.target notion {}
      (mergeResults st1.res st2.res, st2.target, st1.target)

/-- `SyncService.sync` including its outer `try`: an exception from a
repository `list()` call (modelled by the two flags) escapes the
per-transaction loop and is re-raised wrapped as a RepositoryError. -/
def sync (notionListFails sqliteListFails : Bool) (wst : Txn → Nat)
    (addFails updFails : Txn → Bool) (notion sqlite : Repo)
    (opts : SyncOptions) : Except String (SyncResult × Repo × Repo) :=
  if notionListFails ∨ sqliteListFails then
    Except.error "Sync operation failed"
  else
    Except.ok (syncPure wst addFails updFails notion sqlite opts)

/-! Categorization pipeline.  The LLM client is an oracle
`Prompt → Except LErr String`; `_extract_json` (JSON recovery from raw
LLM text, src/infrastructure/ai/response_parser.py) is an oracle
`String → Except Unit JVal` over the JSON value domain below, and the
claims quantify over both.  The category taxonomy CATEGORY_STRUCTURE
lives in src/domain/data/categories.py, which is not in the source tree,
so the parser functions take the taxonomy as an explicit argument. -/

/-- JSON values as produced by `json.loads`; object keys are unique
after parsing, later duplicates having overridden earlier ones. -/
inductive JVal where
  | jnull
  | jbool (b : Bool)
  | jnum (q : Rat)
  | jstr (s : String)
  | jarr (xs : List JVal)
  | jobj (fields : List (String × JVal))
deriving Repr

/-- Python dict `.get(key, default)` on a parsed JSON item; calling it on
a non-dict raises (AttributeError), which the surrounding `try` catches. -/
def jget (item : JVal) (key : String) (default : JVal) :
    Except Unit JVal :=
  match item with
  | JVal.jobj fields =>
      Except.ok ((fields.reverse.find? (fun p => p.1 = key)).map Prod.snd
        |>.getD default)
  | _ => Except.error ()

/-- Python `.strip()` on a fetched JSON field: raises unless the value is
a string. -/
def asStrStripped (v : JVal) : Except Unit String :=
  match v with
  | JVal.jstr s => Except.ok (pyStrip s)
  | _ => Except.error ()

/-- Python `float(...)` on a fetched JSON field.  Coercion of numeric
strings is not modelled (modelled as a raise, which lands in the same
`except` fallback that a raise from a non-numeric value does). -/
def pyFloat (v : JVal) : Except Unit Rat :=
  match v with
  | JVal.jnum q => Except.ok q
  | JVal.jbool b => Except.ok (if b then 1 else 0)
  | _ => Except.error ()

mutual

/-- A crude `json.dumps` (string escaping is not modelled); only stored
in diagnostic `raw_response` fields, never branched on. -/
def jdump : JVal → String
  | JVal.jnull => "null"
  | JVal.jbool b => if b then "true" else "false"
  | JVal.jnum q => if q.den = 1 then toString q.num else toString q
  | JVal.jstr s => "\x22" ++ s ++ "\x22"
  | JVal.jarr xs => "[" ++ String.intercalate ", " (jdumpList xs) ++ "]"
  | JVal.jobj fs => "\x7b" ++ String.intercalate ", " (jdumpFields fs)
      ++ "\x7d"

/-- Helper of `jdump` for arrays. -/
def jdumpList : List JVal → List String
  | [] => []
  | x :: xs => jdump x :: jdumpList xs

/-- Helper of `jdump` for object fields. -/
def jdumpFields : List (String × JVal) → List String
  | [] => []
  | (k, v) :: fs => ("\x22" ++ k ++ "\x22: " ++ jdump v) :: jdumpFields fs

end

/-- Python `str(...)`, total, as applied to `item.get("id", "")`. -/
def pyStr (v : JVal) : String :=
  match v with
  | JVal.jstr s => s
  | JVal.jnull => "None"
  | JVal.jbool b => if b then "True" else "False"
  | JVal.jnum q => if q.den = 1 then toString q.num else toString q
  | v => jdump v

/-- The confidence clamp `max(0.0, min(1.0, confidence))`. -/
def clamp01 (c : Rat) : Rat := pyMax 0 (pyMin 1 c)

/-- CategorizationResult dataclass (the three error-surfacing fields keep
their defaults on every code path modelled here). -/
structure CatResult where
  category : String
  subcategory : Option String
  confidence : Rat
  raw_response : String
  error_type : Option String := none
  retry_after : Option Nat := none
  retriable : Bool := true
deriving DecidableEq, Repr

/-- The taxonomy shape of CATEGORY_STRUCTURE: category name to its
subcategory names. -/
abbrev Taxonomy := List (String × List String)

/-- `self.valid_categories`. -/
def catNames (cats : Taxonomy) : List String := cats.map Prod.fst

/-- `self.category_subcategories.get(category, set())`. -/
def subcatsOf (cats : Taxonomy) (category : String) : List String :=
  ((cats.find? (fun p => p.1 = category)).map Prod.snd).getD []

/-- `CategorizationResponseParser._validate_category`: exact match, then
case-insensitive match, then partial (substring either way) match, then
the "Miscellaneous" fallback.  Python iterates a set here; iteration
order is fixed to the taxonomy's insertion order. -/
def validateCategory (cats : Taxonomy) (category : String) : String :=
  let valid := catNames cats
  if category ∈ valid then category
  else
    match valid.find? (fun v => pyLower category = pyLower v) with
    | some v => v
    | none =>
        match valid.find? (fun v =>
          pyIn (pyLower category) (pyLower v) ∨
          pyIn (pyLower v) (pyLower category)) with
        | some v => v
        | none => "Miscellaneous"

/-- `CategorizationResponseParser._get_fallback_subcategory`. -/
def fallbackSubcategory (cats : Taxonomy) (category : String) :
    Option String :=
  (subcatsOf cats category).head?

/-- `CategorizationResponseParser._validate_subcategory`: empty string
gives None, then the same three tiers as categories against the chosen
category's subcategory set, then the first subcategory as fallback. -/
def validateSubcategory (cats : Taxonomy) (category subcategory : String) :
    Option String :=
  let valid := subcatsOf cats category
  if subcategory = "" then none
  else if subcategory ∈ valid then some subcategory
  else
    match valid.find? (fun v => pyLower subcategory = pyLower v) with
    | some v => some v
    | none =>
        match valid.find? (fun v =>
          pyIn (pyLower subcategory) (pyLower v) ∨
          pyIn (pyLower v) (pyLower subcategory)) with
        | some v => some v
        | none => fallbackSubcategory cats category

/-- The JSON-extraction oracle type for `_extract_json`: direct parse,
then best-effort regex recovery, else a raise. -/
abbrev Extract := String → Except Unit JVal

/-- `CategorizationResponseParser.parse_category_response`. -/
def parse_category_response (cats : Taxonomy) (extract : Extract)
    (response : String) : CatResult :=
  match (do
    let j ← extract response
    let catRaw ← asStrStripped (← jget j "category" (JVal.jstr ""))
    let conf ← pyFloat (← jget j "confidence" (JVal.jnum (Rat.divInt 1 2)))
    pure (catRaw, conf) : Except Unit (String × Rat)) with
  | Except.ok (catRaw, conf) =>
      { category := validateCategory cats catRaw
        subcategory := none
        confidence := clamp01 conf
        raw_response := response }
  | Except.error _ =>
      { category := "Miscellaneous"
        subcategory := none
        confidence := 0
        raw_response := response }

/-- `CategorizationResponseParser.parse_subcategory_response`. -/
def parse_subcategory_response (cats : Taxonomy) (extract : Extract)
    (response : String) (category : String) : CatResult :=
  match (do
    let j ← extract response
    let subRaw ← asStrStripped (← jget j "subcategory" (JVal.jstr ""))
    let conf ← pyFloat (← jget j "confidence" (JVal.jnum (Rat.divInt 1 2)))
    pure (subRaw, conf) : Except Unit (String × Rat)) with
  | Except.ok (subRaw, conf) =>
      { category := category
        subcategory := validateSubcategory cats category subRaw
        confidence := clamp01 conf
        raw_response := response }
  | Except.error _ =>
      { category := category
        subcategory := fallbackSubcategory cats category
        confidence := Rat.divInt 3 10
        raw_response := response }

/-- `CategorizationResponseParser.parse_full_response`. -/
def parse_full_response (cats : Taxonomy) (extract : Extract)
    (response : String) : CatResult :=
  match (do
    let j ← extract response
    let catRaw ← asStrStripped (← jget j "category" (JVal.jstr ""))
    let subRaw ← asStrStripped (← jget j "subcategory" (JVal.jstr ""))
    let conf ← pyFloat (← jget j "confidence" (JVal.jnum (Rat.divInt 1 2)))
    pure (catRaw, subRaw, conf) : Except Unit (String × String × Rat)) with
  | Except.ok (catRaw, subRaw, conf) =>
      let c := validateCategory cats catRaw
      { category := c
        subcategory := validateSubcategory cats c subRaw
        confidence := clamp01 conf
        raw_response := response }
  | Except.error _ =>
      { category := "Miscellaneous"
        subcategory := some "Uncategorized"
        confidence := 0
        raw_response := response }

/-- The result dict of the optimized batch path, with Python-dict
semantics (assignment to an existing key overwrites in place, to a fresh
key appends). -/
abbrev CatDict := List (String × CatResult)

/-- Python dict assignment `d[k] = v`. -/
def dinsert (k : String) (v : CatResult) (d : CatDict) : CatDict :=
  if d.any (fun p => p.1 = k) then
    d.map (fun p => if p.1 = k then (k, v) else p)
  else d ++ [(k, v)]

/-- Python dict lookup `d[k]` / `d.get(k)`. -/
def dlookup (d : CatDict) (k : String) : Option CatResult :=
  (d.find? (fun p => p.1 = k)).map Prod.snd

/-- Python `k in d`. -/
def dmem (k : String) (d : CatDict) : Bool := d.any (fun p => p.1 = k)

/-- Python `d1.update(d2)`. -/
def dmerge (d1 d2 : CatDict) : CatDict :=
  d2.foldl (fun acc p => dinsert p.1 p.2 acc) d1

/-- The synthetic fallback result assigned on total failure for an id. -/
def fallbackMU (raw : String) : CatResult :=
  { category := "Miscellaneous"
    subcategory := some "Uncategorized"
    confidence := 0
    raw_response := raw }

/-- Processing of one element of the parsed response array inside
`parse_optimized_batch_response`'s loop: fetch id/category/subcategory/
confidence, validate, insert.  A raise anywhere aborts into the
fallback-for-all branch. -/
def parseOptItem (cats : Taxonomy) (d : CatDict) (item : JVal) :
    Except Unit CatDict := do
  let idv ← jget item "id" (JVal.jstr "")
  let txn_id := pyStrip (pyStr idv)
  let catRaw ← asStrStripped (← jget item "category" (JVal.jstr ""))
  let subRaw ← asStrStripped (← jget item "subcategory" (JVal.jstr ""))
  let conf ← pyFloat (← jget item "confidence" (JVal.jnum (Rat.divInt 1 2)))
  let c := validateCategory cats catRaw
  pure (dinsert txn_id
    { category := c
      subcategory := validateSubcategory cats c subRaw
      confidence := clamp01 conf
      raw_response := jdump item } d)

/-- `CategorizationResponseParser.parse_optimized_batch_response`. -/
def parse_optimized_batch_response (cats : Taxonomy) (extract : Extract)
    (response : String) (transaction_ids : List String) : CatDict :=
  match (do
    let j ← extract response
    let items ← (match j with
      | JVal.jarr xs => Except.ok xs
      | _ => Except.error ())
    items.foldlM (parseOptItem cats) [] : Except Unit CatDict) with
  | Except.ok results =>
      transaction_ids.foldl (fun d i =>
        if dmem i d then d
        else dinsert i (fallbackMU "Missing from batch response") d) results
  | Except.error _ =>
      transaction_ids.foldl (fun d i => dinsert i (fallbackMU response) d) []

/-- One input record of the optimized batch path (caller-assigned string
id plus display fields; `str(txn.get("id", ""))` is the `id` field). -/
structure TxnRec where
  id : String
  description : String
  amount : String
  date : String
deriving DecidableEq, Repr

/-- The four prompt shapes the service asks the prompt builder for; their
concrete text is irrelevant to the claims, the client oracle dispatches
on the shape. -/
inductive PromptK where
  | batchP (txns : List TxnRec)
  | categoryP (t : TxnRec)
  | subcategoryP (t : TxnRec) (category : String)
  | fullP (t : TxnRec)

/-- What a `generate` call can raise: an OllamaError, or one of the
LLMError subclasses (RateLimitError / TransientError / PermanentError)
that are not OllamaError subclasses, or any other exception. -/
inductive LErr where
  | ollamaErr (msg : String)
  | otherLLMErr (msg : String)
deriving DecidableEq, Repr

/-- Message carried by the exception (`str(e)`). -/
def LErr.msg : LErr → String
  | LErr.ollamaErr m => m
  | LErr.otherLLMErr m => m

/-- The LLM client oracle: one `generate` call. -/
abbrev Client := PromptK → Except LErr String

/-- `CategorizationService.categorize_single`: two-step path; the `try`
wraps both `generate` calls and catches only OllamaError. -/
def categorize_single (cats : Taxonomy) (extract : Extract)
    (client : Client) (txn : TxnRec) : Except LErr CatResult :=
  match client (PromptK.categoryP txn) with
  | Except.error (LErr.ollamaErr m) => Except.ok (fallbackMU m)
  | Except.error e => Except.error e
  | Except.ok r1 =>
      let cr := parse_category_response cats extract r1
      match client (PromptK.subcategoryP txn cr.category) with
      | Except.error (LErr.ollamaErr m) => Except.ok (fallbackMU m)
      | Except.error e => Except.error e
      | Except.ok r2 =>
          Except.ok (parse_subcategory_response cats extract r2 cr.category)

/-- `CategorizationService.categorize_full`: single-call full prompt;
catches only OllamaError. -/
def categorize_full (cats : Taxonomy) (extract : Extract)
    (client : Client) (txn : TxnRec) : Except LErr CatResult :=
  match client (PromptK.fullP txn) with
  | Except.ok r => Except.ok (parse_full_response cats extract r)
  | Except.error (LErr.ollamaErr m) => Except.ok (fallbackMU m)
  | Except.error e => Except.error e

/-- Fuel-driven worker for `chunksOf` (structural recursion so that the
kernel can evaluate it; the fuel is the list length, always enough). -/
def chunksGo : Nat → Nat → List TxnRec → List (List TxnRec)
  | _, _, [] => []
  | 0, _, l => [l]
  | fuel + 1, n, l =>
      if n = 0 then [l] else l.take n :: chunksGo fuel n (l.drop n)

/-- The batch slicing `transactions[i : i + batch_size]` for
`i in range(0, len(transactions), batch_size)`. -/
def chunksOf (n : Nat) (l : List TxnRec) : List (List TxnRec) :=
  chunksGo l.length n l

/-- The body of `categorize_batch_optimized` for one batch: one
`generate(is_batch=True)` call, parse on success; on OllamaError fall
back to per-transaction `categorize_full`, any exception there yielding
the synthetic fallback; any non-OllamaError exception from the batch
call escapes. -/
def processBatch (cats : Taxonomy) (extract : Extract) (client : Client)
    (all_results : CatDict) (batch : List TxnRec) :
    Except LErr CatDict :=
  let batch_ids := batch.map (fun t => t.id)
  match client (PromptK.batchP batch) with
  | Except.ok resp =>
      Except.ok (dmerge all_results
        (parse_optimized_batch_response cats extract resp batch_ids))
  | Except.error (LErr.ollamaErr _) =>
      Except.ok (batch.foldl (fun acc txn =>
        match categorize_full cats extract client txn with
        | Except.ok r => dinsert txn.id r acc
        | Except.error e => dinsert txn.id (fallbackMU e.msg) acc)
        all_results)
  | Except.error e => Except.error e

/-- `CategorizationService.categorize_batch_optimized`. -/
def categorize_batch_optimized (cats : Taxonomy) (extract : Extract)
    (client : Client) (batch_size : Nat) (txns : List TxnRec) :
    Except LErr CatDict :=
  if txns = [] then Except.ok []
  else (chunksOf batch_size txns).foldlM (processBatch cats extract client) []

/-- Modelled from the spec: the category taxonomy CATEGORY_STRUCTURE of
src/domain/data/categories.py, which is absent from the source tree.
Faithful to the spec's and the tests' named entries: canonical category
"FOOD & GROCERIES" (with subcategory "Groceries"), "TRANSPORTATION", and
the fallback category "Miscellaneous" with subcategory "Uncategorized";
only these names are relied on. -/
def CATEGORY_STRUCTURE : Taxonomy :=
  [("FOOD & GROCERIES", ["Groceries", "Restaurants"]),
   ("TRANSPORTATION", ["Public Transit", "Fuel"]),
   ("Miscellaneous", ["Uncategorized"])]

deriving instance DecidableEq for Except

/-! Concrete fixtures used by witnesses and counterexamples. -/

/-- A plain valid transaction (normalized tags, derived status). -/
def txBase : Txn :=
  { id := 1, date := 0, description := "Lunch", amount := -10,
    category := "Food", subcategory := none, account := none, notes := none,
    reviewed := false, ai_confidence := none, tags := [],
    reimbursable := false, expected_reimbursement := 0,
    actual_reimbursement := 0, reimbursement_status := RStatus.sNone,
    created_at := 1, updated_at := 2 }

/-- Same id and timestamp as `txBase`, different description. -/
def txPeer : Txn := { txBase with description := "Dinner" }

/-- A reimbursable transaction awaiting reimbursement. -/
def txPend : Txn :=
  { txBase with
    reimbursable := true, expected_reimbursement := 5,
    reimbursement_status := RStatus.sPending }

end Budget

namespace Budget

/-! Theorems about the embedded program. -/

lemma needs_update_refl (x : Txn) : needs_update x x = false := by
  simp [needs_update]

/-- C1: conflict resolution is a pure function of the strategy and the
two transactions: SOURCE_WINS yields true, TARGET_WINS and SKIP yield
false, and NEWEST_WINS yields true exactly when the source's updated_at
is strictly greater than the target's, so equal timestamps never
overwrite the target. -/
theorem C1_conflict_resolution_policy (s t : Txn) :
    resolve_conflict s t ConflictResolution.source_wins = true ∧
    resolve_conflict s t ConflictResolution.target_wins = false ∧
    resolve_conflict s t ConflictResolution.skip = false ∧
    (resolve_conflict s t ConflictResolution.newest_wins = true ↔
      s.updated_at > t.updated_at) ∧
    (s.updated_at = t.updated_at →
      resolve_conflict s t ConflictResolution.newest_wins = false) := by
  refine ⟨rfl, rfl, rfl, ?_, ?_⟩
  · simp [resolve_conflict]
  · intro h
    simp [resolve_conflict, h]

/-- Witness for C1 at concrete transactions with equal timestamps. -/
theorem C1_conflict_resolution_policy_witness :
    resolve_conflict txBase txPeer ConflictResolution.newest_wins = false :=
  (C1_conflict_resolution_policy txBase txPeer).2.2.2.2 rfl

lemma mkTransaction_ok_elim {t u : Txn} (h : mkTransaction t = Except.ok u) :
    u.reimbursable = t.reimbursable ∧
    u.expected_reimbursement = t.expected_reimbursement ∧
    u.actual_reimbursement = t.actual_reimbursement ∧
    u.created_at = t.created_at ∧
    u.updated_at = t.updated_at ∧
    u.reimbursement_status = deriveStatus t.reimbursable
      t.expected_reimbursement t.actual_reimbursement
      t.reimbursement_status ∧
    0 ≤ t.actual_reimbursement := by
  unfold mkTransaction at h
  split_ifs at h with h1 h2 h3 h4 h5 h6
  cases h
  refine ⟨rfl, rfl, rfl, rfl, rfl, rfl, ?_⟩
  exact le_of_not_lt h5

lemma statusRule_of_mk {t u : Txn} (h : mkTransaction t = Except.ok u) :
    (u.reimbursable = false → u.reimbursement_status = RStatus.sNone) ∧
    (u.reimbursable = true → u.actual_reimbursement = 0 →
      u.reimbursement_status = RStatus.sPending) ∧
    (u.reimbursable = true → u.expected_reimbursement > 0 →
      u.actual_reimbursement ≥ u.expected_reimbursement →
      u.reimbursement_status = RStatus.sComplete) ∧
    (u.reimbursable = true → u.actual_reimbursement > 0 →
      ¬(u.actual_reimbursement ≥ u.expected_reimbursement ∧
        u.expected_reimbursement > 0) →
      u.reimbursement_status = RStatus.sPart) := by
  obtain ⟨hr, he, ha, -, -, hs, -⟩ := mkTransaction_ok_elim h
  rw [hr, he, ha, hs]
  unfold deriveStatus
  refine ⟨?_, ?_, ?_, ?_⟩
  · intro hf
    simp [hf]
  · intro htr hz
    simp [htr, hz]
  · intro htr hexp hge
    have hnz : ¬t.actual_reimbursement = 0 := by
      intro h0
      rw [h0] at hge
      exact absurd (lt_of_lt_of_le hexp hge) (lt_irrefl 0)
    simp [htr, hnz, hge, hexp]
  · intro htr hpos hnc
    have hnz : ¬t.actual_reimbursement = 0 := ne_of_gt hpos
    simp [htr, hnz, hnc, hpos]

/-- C6: every transaction accepted by construction/validation, and every
transaction produced by update_reimbursement, carries the derived
reimbursement status: not reimbursable gives none; reimbursable with
zero actual gives pending; reimbursable with actual at least a positive
expected gives complete; reimbursable with positive actual otherwise
(including expected = 0) gives partial — regardless of the status value
passed in. -/
theorem C6_reimbursement_status_invariant :
    (∀ t u, mkTransaction t = Except.ok u →
      (u.reimbursable = false → u.reimbursement_status = RStatus.sNone) ∧
      (u.reimbursable = true → u.actual_reimbursement = 0 →
        u.reimbursement_status = RStatus.sPending) ∧
      (u.reimbursable = true → u.expected_reimbursement > 0 →
        u.actual_reimbursement ≥ u.expected_reimbursement →
        u.reimbursement_status = RStatus.sComplete) ∧
      (u.reimbursable = true → u.actual_reimbursement > 0 →
        ¬(u.actual_reimbursement ≥ u.expected_reimbursement ∧
          u.expected_reimbursement > 0) →
        u.reimbursement_status = RStatus.sPart)) ∧
    (∀ t a s now u, update_reimbursement t a s now = Except.ok u →
      (u.reimbursable = false → u.reimbursement_status = RStatus.sNone) ∧
      (u.reimbursable = true → u.actual_reimbursement = 0 →
        u.reimbursement_status = RStatus.sPending) ∧
      (u.reimbursable = true → u.expected_reimbursement > 0 →
        u.actual_reimbursement ≥ u.expected_reimbursement →
        u.reimbursement_status = RStatus.sComplete) ∧
      (u.reimbursable = true → u.actual_reimbursement > 0 →
        ¬(u.actual_reimbursement ≥ u.expected_reimbursement ∧
          u.expected_reimbursement > 0) →
        u.reimbursement_status = RStatus.sPart)) := by
  refine ⟨fun t u h => statusRule_of_mk h, ?_⟩
  intro t a s now u h
  unfold update_reimbursement at h
  split at h
  · cases h
  split at h
  · cases h
  exact statusRule_of_mk h

/-- Witness for C6: a reimbursable transaction with zero actual
reimbursement validates to status pending. -/
theorem C6_reimbursement_status_invariant_witness :
    txPend.reimbursement_status = RStatus.sPending :=
  ((C6_reimbursement_status_invariant.1 txPend txPend (by decide)).2.1
    (by decide) (by decide))

lemma mkTransaction_ok_stamps {t u : Txn}
    (h : mkTransaction t = Except.ok u) :
    u.updated_at = t.updated_at ∧ u.created_at = t.created_at := by
  obtain ⟨-, -, -, hc, hu, -, -⟩ := mkTransaction_ok_elim h
  exact ⟨hu, hc⟩

/-- C7 as amended: mark_as_reviewed, update_category, add_tag with a new
tag, remove_tag with a present tag and update_reimbursement all return a
transaction whose updated_at equals the operation time and whose
created_at is unchanged; anonymize deliberately preserves updated_at
(and created_at) unchanged — so it is never earlier than the original,
but it is not bumped to the operation time. -/
theorem C7_updated_at_bump :
    (∀ t now u, mark_as_reviewed t now = Except.ok u →
      u.updated_at = now ∧ u.created_at = t.created_at) ∧
    (∀ t c sc conf now u, update_category t c sc conf now = Except.ok u →
      u.updated_at = now ∧ u.created_at = t.created_at) ∧
    (∀ t tag now u, pyStrip (pyLower tag) ≠ "" →
      pyStrip (pyLower tag) ∉ t.tags →
      add_tag t tag now = Except.ok u →
      u.updated_at = now ∧ u.created_at = t.created_at) ∧
    (∀ t tag now u, pyStrip (pyLower tag) ∈ t.tags →
      remove_tag t tag now = Except.ok u →
      u.updated_at = now ∧ u.created_at = t.created_at) ∧
    (∀ t a s now u, update_reimbursement t a s now = Except.ok u →
      u.updated_at = now ∧ u.created_at = t.created_at) ∧
    (∀ t now u, anonymize t now = Except.ok u →
      u.updated_at = t.updated_at ∧ u.created_at = t.created_at) := by
  refine ⟨?_, ?_, ?_, ?_, ?_, ?_⟩
  · intro t now u h
    exact mkTransaction_ok_stamps h
  · intro t c sc conf now u h
    unfold update_category at h
    split at h
    · cases h
    exact mkTransaction_ok_stamps h
  · intro t tag now u hne hnm h
    unfold add_tag at h
    rw [if_neg (not_or.mpr ⟨hne, hnm⟩)] at h
    exact mkTransaction_ok_stamps h
  · intro t tag now u hm h
    unfold remove_tag at h
    rw [if_neg (not_not_intro hm)] at h
    exact mkTransaction_ok_stamps h
  · intro t a s now u h
    unfold update_reimbursement at h
    split at h
    · cases h
    split at h
    · cases h
    exact mkTransaction_ok_stamps h
  · intro t now u h
    unfold anonymize at h
    have hst := mkTransaction_ok_stamps h
    exact hst

/-- The transaction `add_tag txBase "Trip" 9` produces. -/
def txTagged : Txn := { txBase with tags := ["trip"], updated_at := 9 }

/-- Witness for C7 at a concrete tag addition. -/
theorem C7_updated_at_bump_witness :
    add_tag txBase "Trip" 9 = Except.ok txTagged ∧
    (txTagged.updated_at = 9 ∧ txTagged.created_at = txBase.created_at) :=
  ⟨by decide,
   C7_updated_at_bump.2.2.1 txBase "Trip" 9 txTagged (by decide) (by decide)
     (by decide)⟩

/-- Counterexample to C7 as stated: anonymize is a field-changing
operation (it redacts the description and clears the notes) yet it
returns updated_at = 2, the original stamp, not the operation time 10. -/
theorem C7_anonymize_does_not_bump :
    (anonymize txBase 10).map Txn.updated_at = Except.ok 2 ∧
    (2 : Nat) ≠ 10 := by
  decide

lemma find_none_of_all {α} (p : α → Bool) (l : List α)
    (h : ∀ x ∈ l, p x = false) : l.find? p = none := by
  rw [List.find?_eq_none]
  intro x hx
  simp [h x hx]

/-- C9: category validation applies its three matching tiers in strict
priority order — exact match returned unchanged, else a case-insensitive
match returns the canonical taxonomy spelling, else a substring match
(either containment direction) returns that taxonomy category, else
"Miscellaneous" — and subcategory validation applies the same three
tiers against the chosen category's subcategory set. -/
theorem C9_validation_tiers :
    (∀ cats c, c ∈ catNames cats → validateCategory cats c = c) ∧
    (∀ cats c v, c ∉ catNames cats → v ∈ catNames cats →
      pyLower c = pyLower v →
      (∀ w ∈ catNames cats, pyLower c = pyLower w → w = v) →
      validateCategory cats c = v) ∧
    (∀ cats c, c ∉ catNames cats →
      (∀ v ∈ catNames cats, pyLower c ≠ pyLower v) →
      (∃ v ∈ catNames cats,
        pyIn (pyLower c) (pyLower v) = true ∨
        pyIn (pyLower v) (pyLower c) = true) →
      validateCategory cats c ∈ catNames cats ∧
        (pyIn (pyLower c) (pyLower (validateCategory cats c)) = true ∨
         pyIn (pyLower (validateCategory cats c)) (pyLower c) = true)) ∧
    (∀ cats c, c ∉ catNames cats →
      (∀ v ∈ catNames cats, pyLower c ≠ pyLower v) →
      (∀ v ∈ catNames cats,
        pyIn (pyLower c) (pyLower v) = false ∧
        pyIn (pyLower v) (pyLower c) = false) →
      validateCategory cats c = "Miscellaneous") ∧
    (∀ cats cat s, s ≠ "" → s ∈ subcatsOf cats cat →
      validateSubcategory cats cat s = some s) ∧
    (∀ cats cat s v, s ≠ "" → s ∉ subcatsOf cats cat →
      v ∈ subcatsOf cats cat → pyLower s = pyLower v →
      (∀ w ∈ subcatsOf cats cat, pyLower s = pyLower w → w = v) →
      validateSubcategory cats cat s = some v) ∧
    (∀ cats cat s, s ≠ "" → s ∉ subcatsOf cats cat →
      (∀ v ∈ subcatsOf cats cat, pyLower s ≠ pyLower v) →
      (∃ v ∈ subcatsOf cats cat,
        pyIn (pyLower s) (pyLower v) = true ∨
        pyIn (pyLower v) (pyLower s) = true) →
      (∃ w, validateSubcategory cats cat s = some w ∧
        w ∈ subcatsOf cats cat ∧
        (pyIn (pyLower s) (pyLower w) = true ∨
         pyIn (pyLower w) (pyLower s) = true))) := by
  refine ⟨?_, ?_, ?_, ?_, ?_, ?_, ?_⟩
  · intro cats c hmem
    unfold validateCategory
    rw [if_pos hmem]
  · intro cats c v hnm hv hlow huniq
    unfold validateCategory
    rw [if_neg hnm]
    have hne : (catNames cats).find? (fun w => pyLower c = pyLower w) ≠ none := by
      intro hnone
      have hx := List.find?_eq_none.mp hnone v hv
      simp [hlow] at hx
    obtain ⟨w, hw⟩ := Option.ne_none_iff_exists'.mp hne
    rw [hw]
    have pw := List.find?_some hw
    have wmem := List.mem_of_find?_eq_some hw
    exact huniq w wmem (of_decide_eq_true pw)
  · intro cats c hnm hnolow hex
    unfold validateCategory
    rw [if_neg hnm]
    have h1 : (catNames cats).find? (fun w => pyLower c = pyLower w) = none := by
      apply find_none_of_all
      intro x hx
      simp [hnolow x hx]
    rw [h1]
    obtain ⟨v, hv, hrel⟩ := hex
    have hne : (catNames cats).find? (fun w =>
        pyIn (pyLower c) (pyLower w) ∨ pyIn (pyLower w) (pyLower c)) ≠ none := by
      intro hnone
      have hx := List.find?_eq_none.mp hnone v hv
      rcases hrel with h | h <;> simp [h] at hx
    obtain ⟨w, hw⟩ := Option.ne_none_iff_exists'.mp hne
    rw [hw]
    have pw := List.find?_some hw
    have wmem := List.mem_of_find?_eq_some hw
    refine ⟨wmem, ?_⟩
    have := of_decide_eq_true pw
    rcases this with h | h
    · exact Or.inl h
    · exact Or.inr h
  · intro cats c hnm hnolow hnorel
    unfold validateCategory
    rw [if_neg hnm]
    have h1 : (catNames cats).find? (fun w => pyLower c = pyLower w) = none := by
      apply find_none_of_all
      intro x hx
      simp [hnolow x hx]
    have h2 : (catNames cats).find? (fun w =>
        pyIn (pyLower c) (pyLower w) ∨ pyIn (pyLower w) (pyLower c)) = none := by
      apply find_none_of_all
      intro x hx
      have := hnorel x hx
      simp [this.1, this.2]
    rw [h1, h2]
  · intro cats cat s hne hmem
    unfold validateSubcategory
    rw [if_neg hne, if_pos hmem]
  · intro cats cat s v hne hnm hv hlow huniq
    unfold validateSubcategory
    rw [if_neg hne, if_neg hnm]
    have hfind : (subcatsOf cats cat).find? (fun w => pyLower s = pyLower w) ≠ none := by
      intro hnone
      have hx := List.find?_eq_none.mp hnone v hv
      simp [hlow] at hx
    obtain ⟨w, hw⟩ := Option.ne_none_iff_exists'.mp hfind
    rw [hw]
    have pw := List.find?_some hw
    have wmem := List.mem_of_find?_eq_some hw
    rw [huniq w wmem (of_decide_eq_true pw)]
  · intro cats cat s hne hnm hnolow hex
    unfold validateSubcategory
    rw [if_neg hne, if_neg hnm]
    have h1 : (subcatsOf cats cat).find? (fun w => pyLower s = pyLower w) = none := by
      apply find_none_of_all
      intro x hx
      simp [hnolow x hx]
    rw [h1]
    obtain ⟨v, hv, hrel⟩ := hex
    have hfind : (subcatsOf cats cat).find? (fun w =>
        pyIn (pyLower s) (pyLower w) ∨ pyIn (pyLower w) (pyLower s)) ≠ none := by
      intro hnone
      have hx := List.find?_eq_none.mp hnone v hv
      rcases hrel with h | h <;> simp [h] at hx
    obtain ⟨w, hw⟩ := Option.ne_none_iff_exists'.mp hfind
    rw [hw]
    have pw := List.find?_some hw
    have wmem := List.mem_of_find?_eq_some hw
    refine ⟨w, rfl, wmem, ?_⟩
    have := of_decide_eq_true pw
    rcases this with h | h
    · exact Or.inl h
    · exact Or.inr h

/-- Witness for C9: one concrete instance of each tier, including the
spec's example that "food & groceries" normalizes to the canonical
"FOOD & GROCERIES". -/
theorem C9_validation_tiers_witness :
    validateCategory CATEGORY_STRUCTURE "Miscellaneous" = "Miscellaneous" ∧
    validateCategory CATEGORY_STRUCTURE "food & groceries" = "FOOD & GROCERIES" ∧
    validateCategory CATEGORY_STRUCTURE "zzz unknown zzz" = "Miscellaneous" ∧
    validateSubcategory CATEGORY_STRUCTURE "FOOD & GROCERIES" "groceries" = some "Groceries" :=
  ⟨C9_validation_tiers.1 CATEGORY_STRUCTURE "Miscellaneous" (by decide),
   C9_validation_tiers.2.1 CATEGORY_STRUCTURE "food & groceries" "FOOD & GROCERIES"
     (by decide) (by decide) (by decide) (by decide),
   C9_validation_tiers.2.2.2.1 CATEGORY_STRUCTURE "zzz unknown zzz"
     (by decide) (by decide) (by decide),
   C9_validation_tiers.2.2.2.2.2.1 CATEGORY_STRUCTURE "FOOD & GROCERIES" "groceries"
     "Groceries" (by decide) (by decide) (by decide) (by decide) (by decide)⟩



lemma processOne_dry_target (opts : SyncOptions) (m : Repo) (bk : Backend)
    (wst : Txn → Nat) (af uf : Txn → Bool) (st : SyncState) (x : Txn)
    (h : opts.dry_run = true) :
    (processOne opts m bk wst af uf st x).target = st.target := by
  unfold processOne
  cases lookupById m x.id <;> simp [h] <;> split_ifs <;> rfl

lemma foldl_dry_target (opts : SyncOptions) (m : Repo) (bk : Backend)
    (wst : Txn → Nat) (af uf : Txn → Bool) (h : opts.dry_run = true) :
    ∀ (l : List Txn) (st : SyncState),
      (l.foldl (processOne opts m bk wst af uf) st).target = st.target := by
  intro l
  induction l with
  | nil => intro st; rfl
  | cons a l ih =>
      intro st
      rw [List.foldl_cons, ih, processOne_dry_target _ _ _ _ _ _ _ _ h]

lemma uni_dry_target (opts : SyncOptions) (bk : Backend) (wst : Txn → Nat)
    (af uf : Txn → Bool) (source target : Repo) (r : SyncResult)
    (h : opts.dry_run = true) :
    (sync_unidirectional opts bk wst af uf source target r).target =
      target := by
  unfold sync_unidirectional
  rw [foldl_dry_target _ _ _ _ _ _ h]

lemma processOne_res_dry (opts1 opts2 : SyncOptions) (m : Repo)
    (bk : Backend) (wst : Txn → Nat) (st1 st2 : SyncState) (x : Txn)
    (hc : opts1.conflict_resolution = opts2.conflict_resolution)
    (h1 : opts1.dry_run = true) (h2 : opts2.dry_run = false)
    (h : st1.res = st2.res) :
    (processOne opts1 m bk wst noFail noFail st1 x).res =
      (processOne opts2 m bk wst noFail noFail st2 x).res := by
  unfold processOne
  cases lookupById m x.id <;> simp [h1, h2, h, hc, noFail] <;> split_ifs <;> simp [h]

lemma foldl_res_dry (opts1 opts2 : SyncOptions) (m : Repo) (bk : Backend)
    (wst : Txn → Nat)
    (hc : opts1.conflict_resolution = opts2.conflict_resolution)
    (h1 : opts1.dry_run = true) (h2 : opts2.dry_run = false) :
    ∀ (l : List Txn) (st1 st2 : SyncState), st1.res = st2.res →
      (l.foldl (processOne opts1 m bk wst noFail noFail) st1).res =
        (l.foldl (processOne opts2 m bk wst noFail noFail) st2).res := by
  intro l
  induction l with
  | nil => intro st1 st2 h; exact h
  | cons a l ih =>
      intro st1 st2 h
      rw [List.foldl_cons, List.foldl_cons]
      exact ih _ _ (processOne_res_dry _ _ _ _ _ _ _ _ hc h1 h2 h)

lemma uni_res_dry (opts1 opts2 : SyncOptions) (bk : Backend)
    (wst : Txn → Nat)
    (hc : opts1.conflict_resolution = opts2.conflict_resolution)
    (hm : opts1.mode = opts2.mode)
    (hl : opts1.last_sync_time = opts2.last_sync_time)
    (h1 : opts1.dry_run = true) (h2 : opts2.dry_run = false)
    (source target : Repo) (r : SyncResult) :
    (sync_unidirectional opts1 bk wst noFail noFail source target r).res =
      (sync_unidirectional opts2 bk wst noFail noFail source target r).res := by
  unfold sync_unidirectional
  have hsel : sourceSelection opts1 source = sourceSelection opts2 source := by
    unfold sourceSelection
    rw [hm, hl]
  rw [hsel]
  exact foldl_res_dry _ _ _ _ _ hc h1 h2 _ _ _ rfl

/-- C2 as amended: a dry-run sync never mutates either repository, for
every direction and even under arbitrary write-failure oracles; and for
the two unidirectional directions the returned counters equal those of
the same call with dry_run=false.  (For bidirectional the counter
equality fails — see the counterexample — because the real first pass
feeds the second pass's source.) -/
theorem C2_dry_run (wst : Txn → Nat) (af uf : Txn → Bool)
    (notion sqlite : Repo) (opts : SyncOptions) (h : opts.dry_run = true) :
    ((syncPure wst af uf notion sqlite opts).2.1 = notion ∧
     (syncPure wst af uf notion sqlite opts).2.2 = sqlite) ∧
    (opts.direction ≠ SyncDirection.bidirectional →
      (syncPure wst noFail noFail notion sqlite opts).1 =
        (syncPure wst noFail noFail notion sqlite
          { opts with dry_run := false }).1) := by
  obtain ⟨dir, cr, mode, lst, dry⟩ := opts
  replace h : dry = true := h
  subst h
  constructor
  · cases dir
    · simp only [syncPure]
      exact ⟨trivial, uni_dry_target _ _ _ _ _ _ _ _ rfl⟩
    · simp only [syncPure]
      exact ⟨uni_dry_target _ _ _ _ _ _ _ _ rfl, trivial⟩
    · simp only [syncPure]
      exact ⟨uni_dry_target _ _ _ _ _ _ _ _ rfl,
        uni_dry_target _ _ _ _ _ _ _ _ rfl⟩
  · intro hnb
    cases dir
    · simp only [syncPure]
      apply uni_res_dry <;> rfl
    · simp only [syncPure]
      apply uni_res_dry <;> rfl
    · exact absurd rfl hnb

/-- C2 counterexample fixtures. -/
def txNewer : Txn := { txBase with description := "Lunch v2", updated_at := 9 }

def optsBiDry : SyncOptions :=
  { direction := SyncDirection.bidirectional,
    conflict_resolution := ConflictResolution.newest_wins,
    mode := SyncMode.full, last_sync_time := none, dry_run := true }

/-- A concrete write-instant oracle: every write lands at time 100. -/
def wst100 : Txn → Nat := fun _ => 100

/-- Counterexample to C2 as stated: with bidirectional direction and
NEWEST_WINS, a dry run reports skipped = 1 while the same call with
dry_run=false reports skipped = 0, because the real run's first pass
updates SQLite before the second pass reads it.  (The dry run still
leaves the target repository untouched.) -/
theorem C2_counterexample :
    (syncPure wst100 noFail noFail [txNewer] [txBase] optsBiDry).1.skipped
      = 1 ∧
    (syncPure wst100 noFail noFail [txNewer] [txBase]
      { optsBiDry with dry_run := false }).1.skipped = 0 ∧
    (syncPure wst100 noFail noFail [txNewer] [txBase] optsBiDry).2.2 =
      [txBase] := by
  decide



/-- Unidirectional dry-run options for the C2 witness. -/
def optsN2Sdry : SyncOptions :=
  { direction := SyncDirection.notion_to_sqlite,
    conflict_resolution := ConflictResolution.newest_wins,
    mode := SyncMode.full, last_sync_time := none, dry_run := true }

/-- Witness for C2 as amended, at a concrete unidirectional dry run. -/
theorem C2_dry_run_witness :
    (syncPure wst100 noFail noFail [txNewer] [txBase] optsN2Sdry).2.2 =
      [txBase] ∧
    (syncPure wst100 noFail noFail [txNewer] [txBase] optsN2Sdry).1 =
      (syncPure wst100 noFail noFail [txNewer] [txBase]
        { optsN2Sdry with dry_run := false }).1 :=
  ⟨(C2_dry_run wst100 noFail noFail [txNewer] [txBase] optsN2Sdry rfl).1.2,
   (C2_dry_run wst100 noFail noFail [txNewer] [txBase] optsN2Sdry rfl).2
     (by decide)⟩

lemma find_map_subst (g : Txn → Txn) (tid i : Nat) (l : List Txn)
    (hg : ∀ u, (g u).id = tid) :
    (l.map (fun u => if u.id = tid then g u else u)).find?
        (fun u => u.id = i) =
      if tid = i then
        Option.map g (l.find? (fun u => u.id = i))
      else l.find? (fun u => u.id = i) := by
  induction l with
  | nil => split <;> rfl
  | cons a l ih =>
      simp only [List.map_cons, List.find?_cons]
      by_cases hat : a.id = tid
      · by_cases hti : tid = i
        · simp [hat, hti, hg a]
        · simp [hat, hti, hg a, ih]
      · by_cases hai : a.id = i
        · by_cases hti : tid = i
          · exact absurd (hai.trans hti.symm) hat
          · have hit : ¬i = tid := fun he => hti he.symm
            simp [hat, hai, hti, hit]
        · simp [hat, hai, ih]

lemma lookupById_repoAddW (bk : Backend) (t : Txn) (now : Nat) (r : Repo)
    (i : Nat) (hid : (bk.addW t now).id = t.id) :
    lookupById (repoAddW bk t now r) i =
      if t.id = i then some (bk.addW t now) else lookupById r i := by
  unfold lookupById repoAddW
  rw [List.reverse_append]
  by_cases h : t.id = i <;> simp [List.find?_cons, hid, h]

lemma lookupById_repoUpdateW (bk : Backend) (t : Txn) (now : Nat)
    (r : Repo) (i : Nat) (hid : ∀ u, (bk.updW t now u).id = t.id) :
    lookupById (repoUpdateW bk t now r) i =
      if t.id = i then
        Option.map (bk.updW t now) (lookupById r i)
      else lookupById r i := by
  unfold lookupById repoUpdateW
  rw [← List.map_reverse]
  exact find_map_subst (bk.updW t now) t.id i r.reverse hid

/-- Both backends write rows that keep the incoming transaction's id
(the SQLite row's primary key is the id; the Notion page property
"Transaction ID" is the UUID) and, when the write instant is no earlier
than the incoming transaction's `updated_at`, a stored `updated_at`
that is no earlier either (verbatim for a SQLite add, the write instant
otherwise). -/
lemma backend_writes :
    ∀ bk, bk = sqliteBackend ∨ bk = notionBackend →
      (∀ t n, (bk.addW t n).id = t.id) ∧
      (∀ t n u, (bk.updW t n u).id = t.id) ∧
      (∀ t n, t.updated_at ≤ n → t.updated_at ≤ (bk.addW t n).updated_at) ∧
      (∀ t n u, t.updated_at ≤ n →
        t.updated_at ≤ (bk.updW t n u).updated_at) := by
  intro bk hbk
  rcases hbk with h | h <;> subst h
  · exact ⟨fun _ _ => rfl, fun _ _ _ => rfl,
      fun t _ _ => Nat.le_refl t.updated_at, fun _ _ _ hle => hle⟩
  · exact ⟨fun _ _ => rfl, fun _ _ _ => rfl, fun _ _ hle => hle,
      fun _ _ _ hle => hle⟩

lemma processOne_lookup_ne (opts : SyncOptions) (m : Repo) (bk : Backend)
    (wst : Txn → Nat) (af uf : Txn → Bool) (st : SyncState) (x : Txn)
    (i : Nat) (ha : ∀ t n, (bk.addW t n).id = t.id)
    (hu : ∀ t n u, (bk.updW t n u).id = t.id) (hne : x.id ≠ i) :
    lookupById (processOne opts m bk wst af uf st x).target i =
      lookupById st.target i := by
  have hA := fun (r : Repo) =>
    lookupById_repoAddW bk x (wst x) r i (ha x (wst x))
  have hU := fun (r : Repo) =>
    lookupById_repoUpdateW bk x (wst x) r i (hu x (wst x))
  unfold processOne
  cases lookupById m x.id <;> dsimp only <;> split_ifs <;>
    first
      | rfl
      | (simp [hA, hne]; done)
      | (simp [hU, hne]; done)

lemma foldl_lookup_ne (opts : SyncOptions) (m : Repo) (bk : Backend)
    (wst : Txn → Nat) (af uf : Txn → Bool)
    (ha : ∀ t n, (bk.addW t n).id = t.id)
    (hu : ∀ t n u, (bk.updW t n u).id = t.id) :
    ∀ (l : List Txn) (st : SyncState) (i : Nat), (∀ x ∈ l, x.id ≠ i) →
      lookupById
          (List.foldl (processOne opts m bk wst af uf) st l).target i =
        lookupById st.target i := by
  intro l
  induction l with
  | nil => intro st i _; rfl
  | cons a l ih =>
      intro st i h
      rw [List.foldl_cons,
        ih _ _ (fun x hx => h x (List.mem_cons_of_mem a hx)),
        processOne_lookup_ne _ _ _ _ _ _ _ _ _ ha hu
          (h a (List.mem_cons_self a l))]

/-- The target-side record holding one source transaction's id after a
fault-free non-dry unidirectional pass whose target map was `m` and
whose target backend and write instants were `bk` and `wst`. -/
def expectedAfter (opts : SyncOptions) (bk : Backend) (wst : Txn → Nat)
    (m : Repo) (x : Txn) : Option Txn :=
  match lookupById m x.id with
  | none => some (bk.addW x (wst x))
  | some y =>
      if needs_update x y && resolve_conflict x y opts.conflict_resolution
      then some (bk.updW x (wst x) y) else some y

lemma expectedAfter_isSome (opts : SyncOptions) (bk : Backend)
    (wst : Txn → Nat) (m : Repo) (x : Txn) :
    ∃ y, expectedAfter opts bk wst m x = some y := by
  unfold expectedAfter
  cases lookupById m x.id with
  | none => exact ⟨_, rfl⟩
  | some y =>
      dsimp only
      split_ifs
      · exact ⟨_, rfl⟩
      · exact ⟨_, rfl⟩

lemma resolve_not_source_wins (x y : Txn) (cr : ConflictResolution)
    (hstrat : cr ≠ ConflictResolution.source_wins)
    (hle : x.updated_at ≤ y.updated_at) :
    resolve_conflict x y cr = false := by
  cases cr with
  | source_wins => exact absurd rfl hstrat
  | target_wins => rfl
  | skip => rfl
  | newest_wins =>
      unfold resolve_conflict
      exact decide_eq_false (not_lt.mpr hle)

lemma expectedAfter_secondOK (opts : SyncOptions) (bk : Backend)
    (wst : Txn → Nat) (m : Repo) (x : Txn)
    (hstrat : opts.conflict_resolution ≠ ConflictResolution.source_wins)
    (haddu : x.updated_at ≤ (bk.addW x (wst x)).updated_at)
    (hupdu : ∀ y, x.updated_at ≤ (bk.updW x (wst x) y).updated_at) :
    ∃ y, expectedAfter opts bk wst m x = some y ∧
      (needs_update x y = false ∨
       resolve_conflict x y opts.conflict_resolution = false) := by
  unfold expectedAfter
  cases hm : lookupById m x.id with
  | none =>
      exact ⟨bk.addW x (wst x), rfl,
        Or.inr (resolve_not_source_wins x _ _ hstrat haddu)⟩
  | some y =>
      by_cases hb : (needs_update x y &&
          resolve_conflict x y opts.conflict_resolution) = true
      · refine ⟨bk.updW x (wst x) y, by dsimp only; rw [if_pos hb], ?_⟩
        exact Or.inr (resolve_not_source_wins x _ _ hstrat (hupdu y))
      · refine ⟨y, by dsimp only; rw [if_neg hb], ?_⟩
        rcases Bool.eq_false_or_eq_true (needs_update x y) with h | h
        · rcases Bool.eq_false_or_eq_true
            (resolve_conflict x y opts.conflict_resolution) with h2 | h2
          · exact absurd (by simp [h, h2]) hb
          · exact Or.inr h2
        · exact Or.inl h

lemma processOne_establish (opts : SyncOptions) (m : Repo) (bk : Backend)
    (wst : Txn → Nat) (st : SyncState) (x : Txn)
    (hd : opts.dry_run = false)
    (ha : ∀ t n, (bk.addW t n).id = t.id)
    (hu : ∀ t n u, (bk.updW t n u).id = t.id)
    (hagree : lookupById st.target x.id = lookupById m x.id) :
    lookupById (processOne opts m bk wst noFail noFail st x).target x.id =
      expectedAfter opts bk wst m x := by
  have hA := fun (r : Repo) =>
    lookupById_repoAddW bk x (wst x) r x.id (ha x (wst x))
  have hU := fun (r : Repo) =>
    lookupById_repoUpdateW bk x (wst x) r x.id (hu x (wst x))
  unfold processOne expectedAfter
  cases hm : lookupById m x.id with
  | none => simp [hd, noFail, hA]
  | some y =>
      have hsome : lookupById st.target x.id = some y := hagree.trans hm
      by_cases hn : needs_update x y = true
      · by_cases hr : resolve_conflict x y opts.conflict_resolution = true
        · simp [hn, hr, hd, noFail, hU, hsome]
        · simp [hn, hr, hsome]
      · simp [hn, hsome]

lemma firstRun_lookup (opts : SyncOptions) (m : Repo) (bk : Backend)
    (wst : Txn → Nat) (hd : opts.dry_run = false)
    (ha : ∀ t n, (bk.addW t n).id = t.id)
    (hu : ∀ t n u, (bk.updW t n u).id = t.id) :
    ∀ (l : List Txn) (st : SyncState),
      ((l.map (fun x => x.id)).Nodup) →
      (∀ x ∈ l, lookupById st.target x.id = lookupById m x.id) →
      ∀ x ∈ l,
        lookupById
            (List.foldl
              (processOne opts m bk wst noFail noFail) st l).target x.id =
          expectedAfter opts bk wst m x := by
  intro l
  induction l with
  | nil => intro st _ _ x hx; cases hx
  | cons a l ih =>
      intro st hnd hag x hx
      rw [List.foldl_cons]
      rcases List.mem_cons.mp hx with rfl | hxl
      · have h1 : ∀ z ∈ l, z.id ≠ x.id := by
          intro z hz he
          apply (List.nodup_cons.mp hnd).1
          show x.id ∈ List.map (fun t => t.id) l
          rw [← he]
          exact List.mem_map_of_mem _ hz
        rw [foldl_lookup_ne _ _ _ _ _ _ ha hu _ _ _ h1]
        exact processOne_establish _ _ _ _ _ _ hd ha hu
          (hag x (List.mem_cons_self x l))
      · apply ih _ (List.nodup_cons.mp hnd).2 _ x hxl
        intro z hz
        have hzne : a.id ≠ z.id := by
          intro he
          apply (List.nodup_cons.mp hnd).1
          show a.id ∈ List.map (fun t => t.id) l
          rw [he]
          exact List.mem_map_of_mem _ hz
        rw [processOne_lookup_ne _ _ _ _ _ _ _ _ _ ha hu hzne]
        exact hag z (List.mem_cons_of_mem a hz)

lemma secondRun_counts (opts : SyncOptions) (m : Repo) (bk : Backend)
    (wst : Txn → Nat) (af uf : Txn → Bool) :
    ∀ (l : List Txn) (st : SyncState),
      (∀ x ∈ l, ∃ y, lookupById m x.id = some y ∧
        (needs_update x y = false ∨
         resolve_conflict x y opts.conflict_resolution = false)) →
      (List.foldl
          (processOne opts m bk wst af uf) st l).res.created_in_target =
        st.res.created_in_target ∧
      (List.foldl
          (processOne opts m bk wst af uf) st l).res.updated_in_target =
        st.res.updated_in_target := by
  intro l
  induction l with
  | nil => intro st _; exact ⟨rfl, rfl⟩
  | cons a l ih =>
      intro st h
      rw [List.foldl_cons]
      obtain ⟨y, hy, hor⟩ := h a (List.mem_cons_self a l)
      have hstep :
          (processOne opts m bk wst af uf st a).res.created_in_target =
            st.res.created_in_target ∧
          (processOne opts m bk wst af uf st a).res.updated_in_target =
            st.res.updated_in_target := by
        unfold processOne
        rw [hy]
        rcases hor with hn | hr
        · simp [hn]
        · by_cases hn2 : needs_update a y = true
          · simp [hn2, hr]
          · simp [hn2]
      have hrest := ih (processOne opts m bk wst af uf st a)
        (fun x hx => h x (List.mem_cons_of_mem a hx))
      exact ⟨hrest.1.trans hstep.1, hrest.2.trans hstep.2⟩

lemma secondRun_created (opts : SyncOptions) (m : Repo) (bk : Backend)
    (wst : Txn → Nat) (af uf : Txn → Bool) :
    ∀ (l : List Txn) (st : SyncState),
      (∀ x ∈ l, lookupById m x.id ≠ none) →
      (List.foldl
          (processOne opts m bk wst af uf) st l).res.created_in_target =
        st.res.created_in_target := by
  intro l
  induction l with
  | nil => intro st _; rfl
  | cons a l ih =>
      intro st h
      rw [List.foldl_cons]
      obtain ⟨y, hy⟩ := Option.ne_none_iff_exists'.mp
        (h a (List.mem_cons_self a l))
      have hstep :
          (processOne opts m bk wst af uf st a).res.created_in_target =
            st.res.created_in_target := by
        unfold processOne
        rw [hy]
        dsimp only
        split_ifs <;> rfl
      rw [ih (processOne opts m bk wst af uf st a)
        (fun x hx => h x (List.mem_cons_of_mem a hx)), hstep]

lemma sourceSelection_sublist (opts : SyncOptions) (source : Repo) :
    List.Sublist (sourceSelection opts source) source := by
  unfold sourceSelection
  split
  · exact List.filter_sublist _
  · exact List.Sublist.refl _

lemma uni_second_created (opts : SyncOptions) (bk : Backend)
    (wst1 wst2 : Txn → Nat) (source target : Repo)
    (hd : opts.dry_run = false)
    (ha : ∀ t n, (bk.addW t n).id = t.id)
    (hu : ∀ t n u, (bk.updW t n u).id = t.id)
    (hn : (source.map (fun t => t.id)).Nodup) :
    (sync_unidirectional opts bk wst2 noFail noFail source
        (sync_unidirectional opts bk wst1 noFail noFail source target
          {}).target {}).res.created_in_target = 0 := by
  have hseln : ((sourceSelection opts source).map (fun t => t.id)).Nodup :=
    hn.sublist ((sourceSelection_sublist opts source).map (fun t => t.id))
  have hfirst := firstRun_lookup opts target bk wst1 hd ha hu
    (sourceSelection opts source) { target := target, res := {} } hseln
    (fun x _ => rfl)
  unfold sync_unidirectional
  apply secondRun_created
  intro x hx
  obtain ⟨y, hey⟩ := expectedAfter_isSome opts bk wst1 target x
  have := hfirst x hx
  rw [hey] at this
  rw [this]
  exact Option.some_ne_none y

lemma uni_second_updated (opts : SyncOptions) (bk : Backend)
    (wst1 wst2 : Txn → Nat) (source target : Repo)
    (hd : opts.dry_run = false)
    (ha : ∀ t n, (bk.addW t n).id = t.id)
    (hu : ∀ t n u, (bk.updW t n u).id = t.id)
    (hau : ∀ t n, t.updated_at ≤ n → t.updated_at ≤ (bk.addW t n).updated_at)
    (huu : ∀ t n u, t.updated_at ≤ n →
      t.updated_at ≤ (bk.updW t n u).updated_at)
    (hstrat : opts.conflict_resolution ≠ ConflictResolution.source_wins)
    (hmono : ∀ x, x.updated_at ≤ wst1 x)
    (hn : (source.map (fun t => t.id)).Nodup) :
    (sync_unidirectional opts bk wst2 noFail noFail source
        (sync_unidirectional opts bk wst1 noFail noFail source target
          {}).target {}).res.updated_in_target = 0 := by
  have hseln : ((sourceSelection opts source).map (fun t => t.id)).Nodup :=
    hn.sublist ((sourceSelection_sublist opts source).map (fun t => t.id))
  have hfirst := firstRun_lookup opts target bk wst1 hd ha hu
    (sourceSelection opts source) { target := target, res := {} } hseln
    (fun x _ => rfl)
  unfold sync_unidirectional
  refine (secondRun_counts _ _ _ _ _ _ _ _ ?_).2
  intro x hx
  obtain ⟨y, hey, hok⟩ := expectedAfter_secondOK opts bk wst1 target x
    hstrat (hau x (wst1 x) (hmono x)) (fun z => huu x (wst1 x) z (hmono x))
  refine ⟨y, ?_, hok⟩
  have := hfirst x hx
  rw [hey] at this
  exact this

/-- C3 as amended: with repository states whose ids are unique (the
repository invariant; id is the join key), running the same non-dry-run
unidirectional sync twice in a row with no mutation in between yields a
second SyncResult with created_in_target = 0 — every source id is
already present — and, provided the conflict strategy is not
SOURCE_WINS and the first run's write instants are no earlier than the
written transactions' own `updated_at` stamps (the wall clock during
the first run), updated_in_target = 0 as well.  Under SOURCE_WINS the
claim fails: the target rows carry re-stamped `updated_at` values (the
SQLite UPDATE stamps `datetime.now()`, Notion the server's
last_edited_time), so the second run sees them as differing and
re-updates — see the counterexample. -/
theorem C3_idempotent_amended (notion sqlite : Repo) (opts : SyncOptions)
    (wst1 wst2 : Txn → Nat) (r1 r2 : SyncResult) (n1 s1 n2 s2 : Repo)
    (hd : opts.dry_run = false)
    (hdir : opts.direction = SyncDirection.notion_to_sqlite ∨
            opts.direction = SyncDirection.sqlite_to_notion)
    (hnN : (notion.map (fun t => t.id)).Nodup)
    (hnS : (sqlite.map (fun t => t.id)).Nodup)
    (h1 : syncPure wst1 noFail noFail notion sqlite opts = (r1, n1, s1))
    (h2 : syncPure wst2 noFail noFail n1 s1 opts = (r2, n2, s2)) :
    r2.created_in_target = 0 ∧
    (opts.conflict_resolution ≠ ConflictResolution.source_wins →
      (∀ x, x.updated_at ≤ wst1 x) →
      r2.updated_in_target = 0) := by
  rcases hdir with hdir | hdir
  · obtain ⟨haS, huS, hauS, huuS⟩ :=
      backend_writes sqliteBackend (Or.inl rfl)
    simp only [syncPure, hdir] at h1
    cases h1
    simp only [syncPure, hdir] at h2
    cases h2
    exact ⟨uni_second_created opts sqliteBackend wst1 wst2 notion sqlite
        hd haS huS hnN,
      fun hstrat hmono => uni_second_updated opts sqliteBackend wst1 wst2
        notion sqlite hd haS huS hauS huuS hstrat hmono hnN⟩
  · obtain ⟨haN, huN, hauN, huuN⟩ :=
      backend_writes notionBackend (Or.inr rfl)
    simp only [syncPure, hdir] at h1
    cases h1
    simp only [syncPure, hdir] at h2
    cases h2
    exact ⟨uni_second_created opts notionBackend wst1 wst2 sqlite notion
        hd haN huN hnS,
      fun hstrat hmono => uni_second_updated opts notionBackend wst1 wst2
        sqlite notion hd haN huN hauN huuN hstrat hmono hnS⟩

/-- Non-dry unidirectional options for the C3 witness. -/
def optsN2S : SyncOptions :=
  { direction := SyncDirection.notion_to_sqlite,
    conflict_resolution := ConflictResolution.newest_wins,
    mode := SyncMode.full, last_sync_time := none, dry_run := false }

/-- A write-instant oracle tracking each written transaction's own
`updated_at` (write instants during a sync are never earlier than the
stamps already on the data being written). -/
def wstOwn : Txn → Nat := fun x => x.updated_at

/-- The first sync run of the C3 witness. -/
def c3run1 : SyncResult × Repo × Repo :=
  syncPure wstOwn noFail noFail [txNewer] [txBase] optsN2S

/-- The second sync run of the C3 witness. -/
def c3run2 : SyncResult × Repo × Repo :=
  syncPure wstOwn noFail noFail c3run1.2.1 c3run1.2.2 optsN2S

/-- Witness for C3 as amended, on concrete one-transaction repositories
with the NEWEST_WINS strategy. -/
theorem C3_idempotent_amended_witness :
    c3run2.1.created_in_target = 0 ∧ c3run2.1.updated_in_target = 0 :=
  ⟨(C3_idempotent_amended [txNewer] [txBase] optsN2S wstOwn wstOwn
      c3run1.1 c3run2.1 c3run1.2.1 c3run1.2.2 c3run2.2.1 c3run2.2.2 rfl
      (Or.inl rfl) (by decide) (by decide) rfl rfl).1,
   (C3_idempotent_amended [txNewer] [txBase] optsN2S wstOwn wstOwn
      c3run1.1 c3run2.1 c3run1.2.1 c3run1.2.2 c3run2.2.1 c3run2.2.2 rfl
      (Or.inl rfl) (by decide) (by decide) rfl rfl).2
     (by decide) (fun x => Nat.le_refl x.updated_at)⟩

/-- SOURCE_WINS options for the C3 counterexample. -/
def optsSW : SyncOptions :=
  { direction := SyncDirection.notion_to_sqlite,
    conflict_resolution := ConflictResolution.source_wins,
    mode := SyncMode.full, last_sync_time := none, dry_run := false }

/-- A later write-instant oracle for the counterexample's second run. -/
def wst200 : Txn → Nat := fun _ => 200

/-- The first SOURCE_WINS sync run of the C3 counterexample. -/
def c3sw1 : SyncResult × Repo × Repo :=
  syncPure wst100 noFail noFail [txNewer] [txBase] optsSW

/-- The second SOURCE_WINS sync run of the C3 counterexample. -/
def c3sw2 : SyncResult × Repo × Repo :=
  syncPure wst200 noFail noFail c3sw1.2.1 c3sw1.2.2 optsSW

/-- Counterexample to C3 as stated: Notion-to-SQLite with SOURCE_WINS,
source transaction updated_at = 9 over a stale target copy, first-run
write landing at time 100.  The first run's SQLite UPDATE stamps the
stored row `updated_at = 100` (datetime.now()), so the unchanged
source still differs from the target on the second run and SOURCE_WINS
updates it again: the second run reports updated_in_target = 1, not 0,
and does so on every further rerun. -/
theorem C3_idempotent_counterexample :
    c3sw2.1.created_in_target = 0 ∧ c3sw2.1.updated_in_target = 1 := by
  decide

/-- Whether processing one source transaction raises: a non-dry run that
reaches a repository write (add for a new id, update for a won conflict)
whose oracle fails. -/
def writeFails (opts : SyncOptions) (m : Repo) (af uf : Txn → Bool)
    (x : Txn) : Bool :=
  if opts.dry_run then false
  else
    match lookupById m x.id with
    | none => af x
    | some y =>
        if needs_update x y && resolve_conflict x y opts.conflict_resolution
        then uf x else false

lemma processOne_errors (opts : SyncOptions) (m : Repo) (bk : Backend)
    (wst : Txn → Nat) (af uf : Txn → Bool) (st : SyncState) (x : Txn) :
    (processOne opts m bk wst af uf st x).res.errors =
      st.res.errors + (if writeFails opts m af uf x then 1 else 0) ∧
    (processOne opts m bk wst af uf st x).res.total_processed =
      st.res.total_processed + 1 := by
  unfold processOne writeFails
  cases lookupById m x.id <;> dsimp only <;> split_ifs <;>
    simp_all

lemma foldl_errors (opts : SyncOptions) (m : Repo) (bk : Backend)
    (wst : Txn → Nat) (af uf : Txn → Bool) :
    ∀ (l : List Txn) (st : SyncState),
      (List.foldl (processOne opts m bk wst af uf) st l).res.errors =
        st.res.errors + l.countP (writeFails opts m af uf) ∧
      (List.foldl
          (processOne opts m bk wst af uf) st l).res.total_processed =
        st.res.total_processed + l.length := by
  intro l
  induction l with
  | nil => intro st; exact ⟨rfl, rfl⟩
  | cons a l ih =>
      intro st
      rw [List.foldl_cons]
      obtain ⟨he, ht⟩ := processOne_errors opts m bk wst af uf st a
      obtain ⟨ihe, iht⟩ := ih (processOne opts m bk wst af uf st a)
      constructor
      · rw [ihe, he, List.countP_cons]
        by_cases hw : writeFails opts m af uf a = true <;> simp [hw] <;> omega
      · rw [iht, ht, List.length_cons]
        omega

/-- C5: inside the per-transaction loop an exception (a failing
repository write) increments errors by exactly one and does not stop the
remaining source transactions from being processed — the final errors
counter is the initial one plus the number of failing transactions, and
total_processed still counts the whole (filtered) source list; whereas a
failing initial list() call makes sync() abort with a wrapped
RepositoryError. -/
theorem C5_error_isolation :
    (∀ (opts : SyncOptions) (bk : Backend) (wst : Txn → Nat)
        (af uf : Txn → Bool) (source target : Repo) (r : SyncResult),
      (sync_unidirectional opts bk wst af uf source target r).res.errors =
        r.errors + (sourceSelection opts source).countP
          (writeFails opts target af uf) ∧
      (sync_unidirectional opts bk wst af uf source target
          r).res.total_processed =
        r.total_processed + (sourceSelection opts source).length) ∧
    (∀ (nlf slf : Bool) (wst : Txn → Nat) (af uf : Txn → Bool)
        (notion sqlite : Repo)
        (opts : SyncOptions), nlf = true ∨ slf = true →
      sync nlf slf wst af uf notion sqlite opts =
        Except.error "Sync operation failed") := by
  constructor
  · intro opts bk wst af uf source target r
    unfold sync_unidirectional
    exact foldl_errors opts target bk wst af uf (sourceSelection opts source) _
  · intro nlf slf wst af uf notion sqlite opts h
    unfold sync
    rcases h with h | h <;> rw [h] <;> simp

/-- An oracle under which every repository add fails. -/
def afAll : Txn → Bool := fun _ => true

/-- Witness for C5: a failing add counts one error and processing covers
the whole source; a failing list() call aborts the sync with the wrapped
error. -/
theorem C5_error_isolation_witness :
    ((sync_unidirectional optsN2S sqliteBackend wst100 afAll noFail
        [txNewer] [] {}).res.errors =
      ({} : SyncResult).errors +
        [txNewer].countP (writeFails optsN2S [] afAll noFail)) ∧
    sync true false wst100 noFail noFail [] [] optsN2S =
      Except.error "Sync operation failed" :=
  ⟨(C5_error_isolation.1 optsN2S sqliteBackend wst100 afAll noFail
      [txNewer] [] {}).1,
   C5_error_isolation.2 true false wst100 noFail noFail [] [] optsN2S
     (Or.inl rfl)⟩

/-- One input record for the categorization fixtures. -/
def trOne : TxnRec :=
  { id := "t1", description := "ALBERT HEIJN", amount := "-12.5",
    date := "2024-01-01" }

/-- A client whose every generate call raises a TransientError — an
LLMError that is not an OllamaError, exactly what OllamaClient.generate
raises after retries (RateLimitError / TransientError / PermanentError
subclass LLMError, not OllamaError). -/
def clientTransient : Client :=
  fun _ => Except.error (LErr.otherLLMErr "Connection timed out")

/-- A client whose every generate call raises an OllamaError. -/
def clientDown : Client :=
  fun _ => Except.error (LErr.ollamaErr "server unavailable")

/-- An extraction oracle that never finds JSON. -/
def extNone : Extract := fun _ => Except.error ()

/-- C4 is a code bug: the per-batch try catches only OllamaError, but
the Ollama client's generate raises RateLimitError / TransientError /
PermanentError, which subclass LLMError and not OllamaError — so a
client failure escapes categorize_batch_optimized and the caller gets no
mapping at all, contradicting the completeness/no-escape property (which
does hold when the raised exception is an OllamaError, as the service's
own tests simulate). -/
theorem C4_llm_error_escapes :
    categorize_batch_optimized CATEGORY_STRUCTURE extNone clientTransient
        35 [trOne] =
      Except.error (LErr.otherLLMErr "Connection timed out") ∧
    (categorize_batch_optimized CATEGORY_STRUCTURE extNone clientDown
        35 [trOne]).map (fun d => dlookup d "t1") =
      Except.ok (some (fallbackMU "server unavailable")) := by
  decide

/-- A client for which the batch call raises an OllamaError while the
single-transaction prompts succeed with distinguishable answers. -/
def clientTwoFaced : Client := fun p =>
  match p with
  | PromptK.batchP _ => Except.error (LErr.ollamaErr "batch down")
  | PromptK.fullP _ => Except.ok "FULLRESP"
  | PromptK.categoryP _ => Except.ok "CATRESP"
  | PromptK.subcategoryP _ _ => Except.ok "SUBRESP"

/-- Extraction oracle for `clientTwoFaced`'s three responses. -/
def extTwoFaced : Extract := fun s =>
  if s = "FULLRESP" then
    Except.ok (JVal.jobj [("category", JVal.jstr "TRANSPORTATION"),
      ("subcategory", JVal.jstr "Fuel"), ("confidence", JVal.jnum 1)])
  else if s = "CATRESP" then
    Except.ok (JVal.jobj [("category", JVal.jstr "FOOD & GROCERIES"),
      ("confidence", JVal.jnum 1)])
  else if s = "SUBRESP" then
    Except.ok (JVal.jobj [("subcategory", JVal.jstr "Groceries"),
      ("confidence", JVal.jnum 1)])
  else Except.error ()

/-- Counterexample to C8 as stated: after a whole-batch OllamaError the
transaction is reprocessed through categorize_full (one full-prompt
call), not the two-step path — with a client whose full-prompt answer
is TRANSPORTATION while the two-step path would produce
FOOD & GROCERIES, the batch fallback returns TRANSPORTATION. -/
theorem C8_counterexample :
    (categorize_batch_optimized CATEGORY_STRUCTURE extTwoFaced
        clientTwoFaced 35 [trOne]).map
        (fun d => (dlookup d "t1").map (fun r => r.category)) =
      Except.ok (some "TRANSPORTATION") ∧
    (categorize_single CATEGORY_STRUCTURE extTwoFaced clientTwoFaced
        trOne).map (fun r => r.category) =
      Except.ok "FOOD & GROCERIES" ∧
    "TRANSPORTATION" ≠ "FOOD & GROCERIES" := by
  decide

lemma chunksGo_single (fuel n : Nat) (l : List TxnRec) (h0 : l ≠ [])
    (hle : l.length ≤ n) (hn : 0 < n) (hf : l.length ≤ fuel + 1) :
    chunksGo (fuel + 1) n l = [l] := by
  cases l with
  | nil => exact absurd rfl h0
  | cons a t =>
      unfold chunksGo
      rw [if_neg (Nat.pos_iff_ne_zero.mp hn)]
      rw [List.take_of_length_le hle, List.drop_eq_nil_of_le hle]
      cases fuel <;> rfl

lemma chunksOf_single (n : Nat) (l : List TxnRec) (h0 : l ≠ [])
    (hle : l.length ≤ n) (hn : 0 < n) :
    chunksOf n l = [l] := by
  unfold chunksOf
  cases l with
  | nil => exact absurd rfl h0
  | cons a t =>
      rw [List.length_cons]
      exact chunksGo_single t.length n (a :: t) h0 hle hn
        (by rw [List.length_cons])

lemma dlookup_dinsert_self (k : String) (v : CatResult) (d : CatDict) :
    dlookup (dinsert k v d) k = some v := by
  unfold dinsert dlookup
  split_ifs with h
  · induction d with
    | nil => simp at h
    | cons p d ih =>
        by_cases hp : p.1 = k
        · simp [List.find?_cons, hp]
        · have h2 : d.any (fun q => q.1 = k) = true := by
            rcases List.any_eq_true.mp h with ⟨q, hq, hqk⟩
            rcases List.mem_cons.mp hq with rfl | hq2
            · exact absurd (of_decide_eq_true hqk) hp
            · exact List.any_eq_true.mpr ⟨q, hq2, hqk⟩
          simp only [List.map_cons, List.find?_cons]
          rw [if_neg hp, decide_eq_false hp]
          exact ih h2
  · induction d with
    | nil => simp [List.find?_cons]
    | cons p d ih =>
        have hp : ¬p.1 = k := by
          intro hk
          exact h (List.any_eq_true.mpr ⟨p, List.mem_cons_self p d,
            decide_eq_true hk⟩)
        have h2 : ¬d.any (fun q => q.1 = k) = true := by
          intro hk
          rcases List.any_eq_true.mp hk with ⟨q, hq, hqk⟩
          exact h (List.any_eq_true.mpr ⟨q, List.mem_cons_of_mem p hq, hqk⟩)
        simp only [List.cons_append, List.find?_cons]
        rw [decide_eq_false hp]
        exact ih h2

lemma find_map_overwrite (k : String) (v : CatResult) (kk : String)
    (d : CatDict) (h : kk ≠ k) :
    (d.map (fun p => if p.1 = k then (k, v) else p)).find?
        (fun p => p.1 = kk) =
      d.find? (fun p => p.1 = kk) := by
  induction d with
  | nil => rfl
  | cons p d ih =>
      simp only [List.map_cons, List.find?_cons]
      by_cases hp : p.1 = k
      · rw [if_pos hp]
        have hk : ¬((k, v).1 = kk) := fun he => h he.symm
        have hpk : ¬(p.1 = kk) := by
          rw [hp]
          exact fun he => h he.symm
        rw [decide_eq_false hk, decide_eq_false hpk]
        exact ih
      · rw [if_neg hp]
        by_cases hpk : p.1 = kk
        · rw [decide_eq_true hpk]
        · rw [decide_eq_false hpk]
          exact ih

lemma dlookup_dinsert_ne (k kk : String) (v : CatResult) (d : CatDict)
    (h : kk ≠ k) : dlookup (dinsert k v d) kk = dlookup d kk := by
  unfold dinsert dlookup
  split_ifs with hmem
  · rw [find_map_overwrite k v kk d h]
  · induction d with
    | nil =>
        simp only [List.nil_append, List.find?_cons]
        rw [decide_eq_false (fun he => h he.symm : ¬((k, v).1 = kk))]
    | cons p d ih =>
        have h2 : ¬(d.any (fun q => q.1 = k)) = true := by
          intro hk
          rcases List.any_eq_true.mp hk with ⟨q, hq, hqk⟩
          exact hmem (List.any_eq_true.mpr
            ⟨q, List.mem_cons_of_mem p hq, hqk⟩)
        simp only [List.cons_append, List.find?_cons]
        by_cases hpk : p.1 = kk
        · rw [decide_eq_true hpk]
        · rw [decide_eq_false hpk]
          exact ih h2

lemma keys_map_overwrite (k : String) (v : CatResult) (d : CatDict) :
    (d.map (fun p => if p.1 = k then (k, v) else p)).map Prod.fst =
      d.map Prod.fst := by
  induction d with
  | nil => rfl
  | cons p d ih =>
      simp only [List.map_cons]
      by_cases hp : p.1 = k
      · rw [if_pos hp, ih]
        simp [hp]
      · rw [if_neg hp, ih]

lemma dmem_iff (k : String) (d : CatDict) :
    dmem k d = true ↔ k ∈ d.map Prod.fst := by
  unfold dmem
  rw [List.any_eq_true]
  constructor
  · rintro ⟨p, hp, hpk⟩
    have : p.1 = k := of_decide_eq_true hpk
    rw [← this]
    exact List.mem_map_of_mem _ hp
  · intro hk
    rcases List.mem_map.mp hk with ⟨p, hp, hpk⟩
    exact ⟨p, hp, decide_eq_true hpk⟩

lemma dmem_dinsert_self (k : String) (v : CatResult) (d : CatDict) :
    dmem k (dinsert k v d) = true := by
  rw [dmem_iff]
  unfold dinsert
  split_ifs with h
  · rw [keys_map_overwrite]
    exact (dmem_iff k d).mp h
  · rw [List.map_append]
    simp

lemma dmem_dinsert_mono (k kk : String) (v : CatResult) (d : CatDict)
    (h : dmem kk d = true) : dmem kk (dinsert k v d) = true := by
  rw [dmem_iff] at h ⊢
  unfold dinsert
  split_ifs
  · rw [keys_map_overwrite]
    exact h
  · rw [List.map_append]
    exact List.mem_append_left _ h

/-- The per-transaction fallback step of the batch-failure path. -/
def fullFallbackStep (cats : Taxonomy) (extract : Extract)
    (client : Client) (acc : CatDict) (txn : TxnRec) : CatDict :=
  match categorize_full cats extract client txn with
  | Except.ok r => dinsert txn.id r acc
  | Except.error e => dinsert txn.id (fallbackMU e.msg) acc

lemma fullFallbackStep_dlookup_ne (cats : Taxonomy) (extract : Extract)
    (client : Client) (acc : CatDict) (txn : TxnRec) (k : String)
    (h : k ≠ txn.id) :
    dlookup (fullFallbackStep cats extract client acc txn) k =
      dlookup acc k := by
  unfold fullFallbackStep
  cases categorize_full cats extract client txn <;>
    exact dlookup_dinsert_ne _ _ _ _ h

lemma fullFallback_fold_ne (cats : Taxonomy) (extract : Extract)
    (client : Client) :
    ∀ (l : List TxnRec) (acc : CatDict) (k : String),
      (∀ t ∈ l, t.id ≠ k) →
      dlookup (List.foldl (fullFallbackStep cats extract client) acc l) k =
        dlookup acc k := by
  intro l
  induction l with
  | nil => intro acc k _; rfl
  | cons a l ih =>
      intro acc k h
      rw [List.foldl_cons,
        ih _ _ (fun t ht => h t (List.mem_cons_of_mem a ht)),
        fullFallbackStep_dlookup_ne _ _ _ _ _ _
          (fun he => h a (List.mem_cons_self a l) he.symm)]

lemma fullFallback_fold_dlookup (cats : Taxonomy) (extract : Extract)
    (client : Client) :
    ∀ (l : List TxnRec) (acc : CatDict),
      ((l.map (fun t => t.id)).Nodup) →
      ∀ t ∈ l,
        dlookup (List.foldl (fullFallbackStep cats extract client) acc l)
            t.id =
          some (match categorize_full cats extract client t with
                | Except.ok r => r
                | Except.error e => fallbackMU e.msg) := by
  intro l
  induction l with
  | nil => intro acc _ t ht; cases ht
  | cons a l ih =>
      intro acc hnd t ht
      rw [List.foldl_cons]
      rcases List.mem_cons.mp ht with rfl | htl
      · have h1 : ∀ z ∈ l, z.id ≠ t.id := by
          intro z hz he
          apply (List.nodup_cons.mp hnd).1
          show t.id ∈ List.map (fun x => x.id) l
          rw [← he]
          exact List.mem_map_of_mem _ hz
        rw [fullFallback_fold_ne _ _ _ _ _ _ h1]
        unfold fullFallbackStep
        cases categorize_full cats extract client t <;>
          exact dlookup_dinsert_self _ _ _
      · exact ih _ (List.nodup_cons.mp hnd).2 t htl

/-- C8 as amended: when one whole batch fails with an OllamaError, every
transaction of that batch is reprocessed one at a time via the
single-call full-categorization path (categorize_full) — its first and
only LLM call uses the full prompt — and a transaction whose individual
processing raises is assigned the synthetic Miscellaneous/Uncategorized
result with confidence 0. -/
theorem C8_full_fallback (cats : Taxonomy) (extract : Extract)
    (client : Client) (txns : List TxnRec) (bs : Nat) (m : String)
    (d : CatDict)
    (hbs : 0 < bs) (hne : txns ≠ []) (hlen : txns.length ≤ bs)
    (hnd : (txns.map (fun t => t.id)).Nodup)
    (hcl : client (PromptK.batchP txns) = Except.error (LErr.ollamaErr m))
    (hres : categorize_batch_optimized cats extract client bs txns =
      Except.ok d) :
    ∀ t ∈ txns, dlookup d t.id =
      some (match categorize_full cats extract client t with
            | Except.ok r => r
            | Except.error e => fallbackMU e.msg) := by
  unfold categorize_batch_optimized at hres
  rw [if_neg hne, chunksOf_single bs txns hne hlen hbs] at hres
  simp only [List.foldlM, bind, Except.bind] at hres
  unfold processBatch at hres
  rw [hcl] at hres
  simp only [pure, Except.pure] at hres
  cases hres
  exact fullFallback_fold_dlookup cats extract client txns [] hnd

/-- The result the full-prompt fallback produces for `trOne` under
`clientTwoFaced`. -/
def c8res : CatResult :=
  { category := "TRANSPORTATION", subcategory := some "Fuel",
    confidence := 1, raw_response := "FULLRESP" }

/-- Witness for C8 as amended, at the concrete one-transaction batch. -/
theorem C8_full_fallback_witness :
    dlookup [("t1", c8res)] "t1" =
      some (match categorize_full CATEGORY_STRUCTURE extTwoFaced
              clientTwoFaced trOne with
            | Except.ok r => r
            | Except.error e => fallbackMU e.msg) :=
  C8_full_fallback CATEGORY_STRUCTURE extTwoFaced clientTwoFaced [trOne]
    35 "batch down" [("t1", c8res)] (by decide) (by decide) (by decide)
    (by decide) rfl (by decide) trOne (List.mem_singleton.mpr rfl)

/-- The key under which a response-array element is stored:
`str(item.get("id", "")).strip()`, provided `.get` does not raise. -/
def optItemId (item : JVal) : Option String :=
  match jget item "id" (JVal.jstr "") with
  | Except.ok v => some (pyStrip (pyStr v))
  | Except.error _ => none

lemma parseOptItem_ok {cats : Taxonomy} {d : CatDict} {item : JVal}
    {d2 : CatDict} (h : parseOptItem cats d item = Except.ok d2) :
    ∃ k v, optItemId item = some k ∧ d2 = dinsert k v d := by
  unfold parseOptItem at h
  unfold optItemId
  cases hj : jget item "id" (JVal.jstr "") with
  | error e =>
      rw [hj] at h
      simp [bind, Except.bind] at h
  | ok idv =>
      rw [hj] at h
      simp only [bind, Except.bind] at h
      cases hc : jget item "category" (JVal.jstr "") with
      | error e =>
          rw [hc] at h
          simp [Except.bind] at h
      | ok cv =>
          rw [hc] at h
          simp only [Except.bind] at h
          cases hcs : asStrStripped cv with
          | error e =>
              rw [hcs] at h
              simp [Except.bind] at h
          | ok catRaw =>
              rw [hcs] at h
              simp only [Except.bind] at h
              cases hs : jget item "subcategory" (JVal.jstr "") with
              | error e =>
                  rw [hs] at h
                  simp [Except.bind] at h
              | ok sv =>
                  rw [hs] at h
                  simp only [Except.bind] at h
                  cases hss : asStrStripped sv with
                  | error e =>
                      rw [hss] at h
                      simp [Except.bind] at h
                  | ok subRaw =>
                      rw [hss] at h
                      simp only [Except.bind] at h
                      cases hf : jget item "confidence"
                          (JVal.jnum (Rat.divInt 1 2)) with
                      | error e =>
                          rw [hf] at h
                          simp [Except.bind] at h
                      | ok fv =>
                          rw [hf] at h
                          simp only [Except.bind] at h
                          cases hfl : pyFloat fv with
                          | error e =>
                              rw [hfl] at h
                              simp [Except.bind, pure, Except.pure] at h
                          | ok conf =>
                              rw [hfl] at h
                              simp only [Except.bind, pure,
                                Except.pure, Except.ok.injEq] at h
                              exact ⟨pyStrip (pyStr idv), _, rfl, h.symm⟩

lemma parse_fold_mem (cats : Taxonomy) :
    ∀ (items : List JVal) (d0 d : CatDict),
      items.foldlM (parseOptItem cats) d0 = Except.ok d →
      (∀ k, dmem k d0 = true → dmem k d = true) ∧
      (∀ item ∈ items, ∀ k, optItemId item = some k →
        dmem k d = true) := by
  intro items
  induction items with
  | nil =>
      intro d0 d h
      simp only [List.foldlM, pure, Except.pure, Except.ok.injEq] at h
      subst h
      exact ⟨fun k hk => hk, fun item hmem => absurd hmem
        (List.not_mem_nil item)⟩
  | cons a items ih =>
      intro d0 d h
      simp only [List.foldlM] at h
      cases h1 : parseOptItem cats d0 a with
      | error e =>
          rw [h1] at h
          simp [bind, Except.bind] at h
      | ok d1 =>
          rw [h1] at h
          simp only [bind, Except.bind] at h
          obtain ⟨hmono, hitems⟩ := ih d1 d h
          obtain ⟨k0, v0, hid, hd1⟩ := parseOptItem_ok h1
          constructor
          · intro k hk
            apply hmono k
            rw [hd1]
            exact dmem_dinsert_mono k0 k v0 d0 hk
          · intro item hmem k hk
            rcases List.mem_cons.mp hmem with rfl | hmem2
            · have hkk : k = k0 := by
                rw [hid] at hk
                exact (Option.some.inj hk).symm
              subst hkk
              apply hmono k
              rw [hd1]
              exact dmem_dinsert_self k v0 d0
            · exact hitems item hmem2 k hk

lemma fill_mono :
    ∀ (ids : List String) (d : CatDict) (k : String), dmem k d = true →
      dmem k (ids.foldl (fun d i =>
        if dmem i d then d
        else dinsert i (fallbackMU "Missing from batch response") d) d)
        = true := by
  intro ids
  induction ids with
  | nil => intro d k h; exact h
  | cons i ids ih =>
      intro d k h
      rw [List.foldl_cons]
      apply ih
      by_cases hd : dmem i d = true
      · rw [if_pos hd]
        exact h
      · rw [if_neg hd]
        exact dmem_dinsert_mono _ _ _ _ h

/-- Response-array element carrying the requested id "t1". -/
def item10a : JVal :=
  JVal.jobj [("id", JVal.jstr "t1"),
    ("category", JVal.jstr "FOOD & GROCERIES"),
    ("subcategory", JVal.jstr "Groceries"), ("confidence", JVal.jnum 1)]

/-- Response-array element carrying an id that was never requested. -/
def item10b : JVal :=
  JVal.jobj [("id", JVal.jstr "extra"),
    ("category", JVal.jstr "TRANSPORTATION"),
    ("subcategory", JVal.jstr "Fuel"), ("confidence", JVal.jnum 1)]

/-- Extraction oracle returning the two-element response array. -/
def ext10 : Extract := fun s =>
  if s = "R10" then Except.ok (JVal.jarr [item10a, item10b])
  else Except.error ()

/-- Client whose batch call returns that response. -/
def client10 : Client := fun p =>
  match p with
  | PromptK.batchP _ => Except.ok "R10"
  | _ => Except.error (LErr.ollamaErr "unused")

/-- C10: when extraction succeeds on an array and every element parses,
the result dict of parse_optimized_batch_response keys an entry for
every id appearing in the response array — including ids that were not
requested — so the mapping categorize_batch_optimized returns can be a
strict superset of the input ids, as the concrete run shows. -/
theorem C10_response_keys :
    (∀ (cats : Taxonomy) (extract : Extract) (response : String)
        (ids : List String) (items : List JVal) (d : CatDict)
        (item : JVal) (k : String),
      extract response = Except.ok (JVal.jarr items) →
      items.foldlM (parseOptItem cats) ([] : CatDict) = Except.ok d →
      item ∈ items → optItemId item = some k →
      dmem k (parse_optimized_batch_response cats extract response ids)
        = true) ∧
    (dmem "extra" (parse_optimized_batch_response CATEGORY_STRUCTURE
        ext10 "R10" ["t1"]) = true ∧
     "extra" ∉ ["t1"] ∧
     (categorize_batch_optimized CATEGORY_STRUCTURE ext10 client10 35
        [trOne]).map (fun d => dmem "extra" d) = Except.ok true) := by
  constructor
  · intro cats extract response ids items d item k hext hfold hmem hk
    unfold parse_optimized_batch_response
    rw [hext]
    simp only [bind, Except.bind]
    rw [hfold]
    exact fill_mono ids d k
      ((parse_fold_mem cats items [] d hfold).2 item hmem k hk)
  · refine ⟨by decide, by decide, by decide⟩

/-- The parsed dict of the C10 witness run. -/
def c10d : CatDict :=
  (([item10a, item10b].foldlM (parseOptItem CATEGORY_STRUCTURE)
    ([] : CatDict)).toOption).getD []

/-- Witness for C10 applying the universal part at the concrete run. -/
theorem C10_response_keys_witness :
    dmem "extra" (parse_optimized_batch_response CATEGORY_STRUCTURE
      ext10 "R10" ["t1"]) = true :=
  C10_response_keys.1 CATEGORY_STRUCTURE ext10 "R10" ["t1"]
    [item10a, item10b] c10d item10b "extra" rfl (by decide)
    (List.mem_cons_of_mem item10a (List.mem_cons_self item10b []))
    (by decide)

end Budget
